import Mathlib

/-!
Polymorphic type mapping of `iter_typemap.go`.

A shallow embedding of the type-mapping extension of the JSON codec
(`src/iter_typemap.go`): registration of interface bindings
(`NewTypeMappingExt`, `newTypeMapping`), variant resolution (`newObjectPtr`),
the polymorphic decoder (`DynDecode`), the map-key resolver (`DynDecodeKey`)
and the string-key encoder (`keyAsStringEncoder.Encode`).

Go maps are association lists, byte slices are `List Char`, a Go `error` built
by `fmt.Errorf` keeps its format and arguments, a run-time panic is the error
side of `Except`, and the primitives of the host codec and of the reflection
library are fields of `Host` and `TypeEnv`.
-/

namespace Typemap

/-! ## Types and errors -/

/-- Go types as far as the extension inspects them. -/
inductive GoType where
  | iface (name : String) (numMethod : Nat)
  | struct (name : String)
  | basic (name : String)
  | ptr (elem : GoType)
  deriving DecidableEq, Repr

/-- The kinds `reflect.Type.Kind()` distinguishes in `NewTypeMappingExt`. -/
inductive Kind where
  | Ptr
  | Interface
  | Struct
  | Other
  deriving DecidableEq, Repr

/-- Kind of a type: `reflect.Type.Kind()`. -/
def GoType.Kind : GoType → Kind
  | .iface _ _ => .Interface
  | .struct _ => .Struct
  | .basic _ => .Other
  | .ptr _ => .Ptr

/-- Name of a type: `Type.String()`. -/
def GoType.String : GoType → String
  | .iface n _ => n
  | .struct n => n
  | .basic n => n
  | .ptr e => "*" ++ e.String

/-- Rendering of a kind: `reflect.Kind.String()`. -/
def Kind.String : Kind → String
  | .Ptr => "ptr"
  | .Interface => "interface"
  | .Struct => "struct"
  | .Other => "other"

/-- The type assertion `intfType.(*reflect2.UnsafeIFaceType)`: the reflection
library wraps an interface type with at least one method as an
`UnsafeIFaceType` (the empty interface is an `UnsafeEFaceType`). -/
def isUnsafeIFaceType : GoType → Bool
  | .iface _ n => decide (0 < n)
  | _ => false

/-- Substitution of the `%s` verbs of a format by the arguments, in order. -/
def sprintf : List Char → List String → List Char
  | '%' :: 's' :: rest, a :: args => a.toList ++ sprintf rest args
  | c :: rest, args => c :: sprintf rest args
  | [], _ => []

/-- A Go `error` made by `fmt.Errorf(format, args...)`. -/
structure GoError where
  format : String
  args : List String
  deriving DecidableEq, Repr

/-- The message of an error: `err.Error()`. -/
def GoError.Error (e : GoError) : String :=
  String.mk (sprintf e.format.toList e.args)

/-- `fmt.Errorf`. -/
def Errorf (format : String) (args : List String) : GoError :=
  ⟨format, args⟩

deriving instance DecidableEq for Except

/-- Type-level services of the reflection library. -/
structure TypeEnv where
  /-- `reflect2.TypeByName`: the type of a qualified name, `none` for nil. -/
  TypeByName : String → Option GoType
  /-- `typ.Implements(intf)`. -/
  Implements : GoType → GoType → Bool

/-! ## Go maps -/

/-- Assignment `m[k] = v` on a map kept as an association list. -/
def mapSet {β : Type} (m : List (String × β)) (k : String) (v : β) : List (String × β) :=
  (k, v) :: m.filter (fun p => !(p.1 == k))

/-! ## Registration -/

/-- The user configuration `TypeMapping`. -/
structure TypeMapping where
  Interface : Option GoType
  TypeField : String
  SubTypes : List (String × String)
  deriving DecidableEq, Repr

/-- The binding `typeMapping`: interface, discriminator field, variant map. -/
structure typeMapping where
  interfaceType : GoType
  typeField : String
  subTypes : List (String × Option GoType)
  deriving DecidableEq, Repr

/-- The `range typeMap.SubTypes` loop of `newTypeMapping`, in the order the
entries are visited. -/
def newTypeMapping_loop (env : TypeEnv) (intfType : GoType) :
    List (String × String) → List (String × Option GoType) →
    Except GoError (List (String × Option GoType))
  | [], subTypes => .ok subTypes
  | (typeName, subtyp) :: rest, subTypes =>
    match env.TypeByName subtyp with
    | none => newTypeMapping_loop env intfType rest subTypes
    | some subType =>
      if !env.Implements (.ptr subType) intfType then
        .error (Errorf "sub-type '%s' does not implement %s"
          [subType.String, intfType.String])
      else
        newTypeMapping_loop env intfType rest (mapSet subTypes typeName (some subType))

/-- The function `newTypeMapping`. -/
def newTypeMapping (env : TypeEnv) (intfType : GoType) (typeMap : TypeMapping) :
    Except GoError typeMapping :=
  if typeMap.SubTypes.length = 0 then
    .error (Errorf "no sub-types for '%s'" [intfType.String])
  else if !isUnsafeIFaceType intfType then
    .error (Errorf "invalid interface typpe '%s'" [intfType.String])
  else
    match newTypeMapping_loop env intfType typeMap.SubTypes [] with
    | .error err => .error err
    | .ok subTypes =>
      .ok { interfaceType := intfType, typeField := typeMap.TypeField, subTypes := subTypes }

/-- The extension `TypeMappingExt`: the bindings by interface type. -/
structure TypeMappingExt where
  types : List (GoType × typeMapping)
  deriving DecidableEq, Repr

/-- The element type `reflect.Type.Elem()` of a pointer type. -/
def GoType.Elem : GoType → GoType
  | .ptr elem => elem
  | t => t

/-- The `switch cfg.Interface.Kind()` of `NewTypeMappingExt`: the interface
type of a configuration, `none` in the default case. -/
def configInterface (itf : GoType) : Option GoType :=
  match itf.Kind with
  | .Ptr => some itf.Elem
  | .Interface => some itf
  | _ => none

/-- The `range cfgs` loop of `NewTypeMappingExt`. -/
def NewTypeMappingExt_loop (env : TypeEnv) :
    List TypeMapping → List (GoType × typeMapping) →
    Except GoError (List (GoType × typeMapping))
  | [], types => .ok types
  | cfg :: rest, types =>
    match cfg.Interface with
    | none => .error (Errorf "nil interface provided" [])
    | some itf =>
      match configInterface itf with
      | none =>
        .error (Errorf "invalid interface %s (kind %s)" [itf.String, itf.Kind.String])
      | some intfType =>
        match newTypeMapping env intfType cfg with
        | .error err => .error err
        | .ok tm =>
          NewTypeMappingExt_loop env rest
            ((intfType, tm) :: types.filter (fun p => !(p.1 == intfType)))

/-- The function `NewTypeMappingExt`. -/
def NewTypeMappingExt (env : TypeEnv) (cfgs : List TypeMapping) :
    Except GoError TypeMappingExt :=
  if cfgs.length = 0 then
    .error (Errorf "no config provided" [])
  else
    match NewTypeMappingExt_loop env cfgs [] with
    | .error err => .error err
    | .ok types => .ok ⟨types⟩

/-! ## Memory, cursor and host codec -/

/-- Addresses of storage cells and of allocated instances. -/
abbrev Addr := Nat

/-- The value of an interface-typed cell: the nil interface, an interface
holding a nil pointer, or an interface holding a pointer to an instance. -/
inductive IfaceVal where
  | nil
  | nilPtr (typ : GoType)
  | obj (typ : GoType) (addr : Addr)
  deriving DecidableEq, Repr

/-- The test `reflect2.IsNil`. -/
def IsNil : IfaceVal → Bool
  | .nil => true
  | .nilPtr _ => true
  | .obj _ _ => false

/-- The contents of an allocated instance: its type and the fields that differ
from their zero value. The extension only hands instances to the host codec. -/
structure Instance where
  typ : GoType
  fields : List (String × String)
  deriving DecidableEq, Repr

/-- The zero instance made by `typ.UnsafeNew()`. -/
def Instance.zero (typ : GoType) : Instance :=
  ⟨typ, []⟩

/-- The decode cursor `Iterator`: input, position `head`, error state. -/
structure Iterator where
  buf : List Char
  head : Nat
  Error : Option GoError
  deriving DecidableEq, Repr

/-- The calls a decode makes, in the order it makes them. -/
inductive Event where
  | ReadNil
  | locateObjectField (field : String) (head : Nat)
  | UnsafeNew (typ : GoType) (addr : Addr)
  | UnsafeSet (ptr : Addr) (v : IfaceVal)
  | FieldSet (name : String) (v : IfaceVal)
  | IndexSet (index : Int) (v : IfaceVal)
  | SetMapIndex (key : String) (v : IfaceVal)
  | ReadVal (obj : IfaceVal) (head : Nat)
  | ReadString
  deriving DecidableEq, Repr

/-- The memory a decode works on, with the log of its calls. -/
structure World where
  /-- interface-typed storage cells (struct fields, slice elements, temporaries) -/
  cells : Addr → IfaceVal
  /-- entries of the maps, by the address of the map -/
  maps : Addr → List (String × IfaceVal)
  /-- allocated instances -/
  objs : Addr → Option Instance
  /-- next free instance address -/
  next : Addr
  trace : List Event

/-- Appends an event to the log. -/
def World.log (w : World) (e : Event) : World :=
  { w with trace := w.trace ++ [e] }

/-- Stores `v` in the cell at `a`. -/
def World.setCell (w : World) (a : Addr) (v : IfaceVal) : World :=
  { w with cells := Function.update w.cells a v }

/-- The container `reflect.ValueOf(container).Elem()` of a decode context: a
struct with the addresses of its fields, a slice with the addresses of its
elements, a map (`none` for the nil map), or a value of another kind. -/
inductive Container where
  | Struct (fields : List (String × Addr))
  | Slice (elems : List Addr)
  | Map (m : Option Addr)
  | Other (kind : String)
  deriving DecidableEq, Repr

/-- The decode context `mappingCtx`. -/
structure mappingCtx where
  container : Container
  field : Option String
  sliceIndex : Int
  mapKey : String
  deriving DecidableEq, Repr

/-- The primitives of the host codec. -/
structure Host where
  /-- `iter.ReadNil()` -/
  ReadNil : Iterator → Bool × Iterator
  /-- `iter.ReadString()` -/
  ReadString : Iterator → List Char × Iterator
  /-- `locateObjectField(iter, field)` -/
  locateObjectField : Iterator → String → List Char × Iterator
  /-- `iter.ReadVal(obj)` -/
  ReadVal : IfaceVal → Iterator → World → Iterator × World

/-- Modelled from the spec: `BorrowIterator` of the host configuration, which
is not in the sources at hand: "open a fresh, independent decode cursor over
`keyString`'s bytes". -/
def BorrowIterator (input : List Char) : Iterator :=
  ⟨input, 0, none⟩

/-! ## Variant resolution -/

/-- The call `strings.Trim(s, cutset)`. -/
def Trim (s : List Char) (cutset : List Char) : List Char :=
  ((s.dropWhile (fun c => cutset.contains c)).reverse.dropWhile
    (fun c => cutset.contains c)).reverse

/-- The raw bytes of a JSON string value: the content between two quotes. -/
def jsonString (content : List Char) : List Char :=
  '"' :: content ++ ['"']

/-- The method `typeMapping.newObjectPtr`. -/
def newObjectPtr (typMap : typeMapping) (typeName : List Char) (w : World) :
    Except GoError IfaceVal × World :=
  let typeName := String.mk (Trim typeName ['"', ' '])
  match typMap.subTypes.lookup typeName with
  | some (some typ) =>
    let newPtr := w.next
    (.ok (.obj typ newPtr),
      { w with
        next := newPtr + 1
        objs := Function.update w.objs newPtr (some (Instance.zero typ))
        trace := w.trace ++ [.UnsafeNew typ newPtr] })
  | _ => (.error (Errorf "typeMapping decoder: type '%s' not found" [typeName]), w)

/-! ## The polymorphic decoder -/

/-- The container assignment of `DynDecode`: the `switch containerElem.Kind()`.
The outer `Except` is a panic of the reflection library; the inner result is
the world after the assignment, or the error the switch reports. -/
def setContainer (typMap : typeMapping) (decCtx : mappingCtx) (newVal : IfaceVal)
    (w : World) : Except String (Except GoError World) :=
  match decCtx.container with
  | .Struct fields =>
    match decCtx.field with
    | none =>
      .ok (.error (Errorf "typeMapping decoder: expecting struct field when decoding '%s'"
        [typMap.interfaceType.String]))
    | some name =>
      match fields.lookup name with
      | none => .error "reflect: call of reflect.Value.Set on zero Value"
      | some a => .ok (.ok ((w.setCell a newVal).log (.FieldSet name newVal)))
  | .Slice elems =>
    if 0 ≤ decCtx.sliceIndex then
      match elems.get? decCtx.sliceIndex.toNat with
      | none => .error "reflect: slice index out of range"
      | some a => .ok (.ok ((w.setCell a newVal).log (.IndexSet decCtx.sliceIndex newVal)))
    else
      .error "reflect: slice index out of range"
  | .Map m =>
    match m with
    | none => .error "assignment to entry in nil map"
    | some a =>
      .ok (.ok ({ w with
        maps := Function.update w.maps a (mapSet (w.maps a) decCtx.mapKey newVal) }.log
          (.SetMapIndex decCtx.mapKey newVal)))
  | .Other kind =>
    .ok (.error (Errorf "typeMapping decoder: unexpected kind %s of container when decoding '%s'"
      [kind, typMap.interfaceType.String]))

/-- The method `typeMapping.DynDecode`. The `Except` side is a panic. -/
def DynDecode (h : Host) (typMap : typeMapping) (decCtx : mappingCtx) (ptr : Addr)
    (iter : Iterator) (w : World) : Except String (Iterator × World) :=
  let isNull := (h.ReadNil iter).1
  let iter := (h.ReadNil iter).2
  let w := w.log .ReadNil
  if isNull then
    .ok (iter, (w.setCell ptr .nil).log (.UnsafeSet ptr .nil))
  else
    let obj := w.cells ptr
    if IsNil obj then
      -- find the type field
      let start := iter.head
      let typeValue := (h.locateObjectField iter typMap.typeField).1
      let iter := (h.locateObjectField iter typMap.typeField).2
      let w := w.log (.locateObjectField typMap.typeField start)
      let iter := { iter with head := start }
      match iter.Error with
      | some e =>
        .ok ({ iter with Error := some (Errorf
          "typeMapping decoder: error [%s] trying to locate type field '%s' when decoding '%s'"
          [e.Error, typMap.typeField, typMap.interfaceType.String]) }, w)
      | none =>
        -- create a new instance
        match newObjectPtr typMap typeValue w with
        | (.error err, w) => .ok ({ iter with Error := some err }, w)
        | (.ok newObj, w) =>
          match setContainer typMap decCtx newObj w with
          | .error p => .error p
          | .ok (.error err) => .ok ({ iter with Error := some err }, w)
          | .ok (.ok w) => .ok (h.ReadVal newObj iter (w.log (.ReadVal newObj iter.head)))
    else
      .ok (h.ReadVal obj iter (w.log (.ReadVal obj iter.head)))

/-! ## The map-key resolver -/

/-- The method `typeMapping.DynDecodeKey`: the returned pair `(interface{},
error)`, the cursor and the memory afterwards. The `Except` side is a panic. -/
def DynDecodeKey (h : Host) (typMap : typeMapping) (iter : Iterator) (w : World) :
    Except String ((IfaceVal × Option GoError) × Iterator × World) :=
  let isNull := (h.ReadNil iter).1
  let iter := (h.ReadNil iter).2
  let w := w.log .ReadNil
  if isNull then
    .ok ((.nil, none), iter, w)
  else
    let keyString := (h.ReadString iter).1
    let iter := (h.ReadString iter).2
    let w := w.log .ReadString
    match iter.Error with
    | some e =>
      .ok ((.nil, some (Errorf
        "typeMapping key decoder: error [%s] reading key when decoding '%s'"
        [e.Error, typMap.interfaceType.String])), iter, w)
    | none =>
      let iterKey := BorrowIterator keyString
      let start := iterKey.head
      let typeValue := (h.locateObjectField iterKey typMap.typeField).1
      let iterKey := (h.locateObjectField iterKey typMap.typeField).2
      let w := w.log (.locateObjectField typMap.typeField start)
      let iterKey := { iterKey with head := start }
      match iterKey.Error with
      | some _ =>
        -- the message is built from `iter.Error.Error()`, the outer cursor
        match iter.Error with
        | none => .error "invalid memory address or nil pointer dereference"
        | some e =>
          .ok ((.nil, some (Errorf
            "typeMapping key decoder: error [%s] trying to locate type field '%s' when decoding '%s'"
            [e.Error, typMap.typeField, typMap.interfaceType.String])), iter, w)
      | none =>
        match newObjectPtr typMap typeValue w with
        | (.error err, w) => .ok ((.nil, some err), iter, w)
        | (.ok newObj, w) =>
          .ok ((newObj, none), iter,
            (h.ReadVal newObj iterKey (w.log (.ReadVal newObj iterKey.head))).2)

/-! ## A host codec for concrete runs -/

/-- JSON whitespace. -/
def isSpace (c : Char) : Bool :=
  c == ' ' || c == '\n' || c == '\t' || c == '\r'

/-- Drops leading whitespace. -/
def skipSpace (s : List Char) : List Char :=
  s.dropWhile isSpace

/-- Reads a string after its opening quote: the raw content and the input
after the closing quote, `none` when the string does not end. -/
def scanString : List Char → Option (List Char × List Char)
  | [] => none
  | '"' :: rest => some ([], rest)
  | '\\' :: c :: rest =>
    match scanString rest with
    | none => none
    | some (s, r) => some ('\\' :: c :: s, r)
  | c :: rest =>
    match scanString rest with
    | none => none
    | some (s, r) => some (c :: s, r)

/-- Skips the inside of an object or array, `depth` brackets deep, over
strings and nested brackets: the input after the closing bracket. -/
def skipComposite : Nat → Nat → List Char → Option (List Char)
  | 0, _, _ => none
  | _ + 1, _, [] => none
  | fuel + 1, depth, '"' :: rest =>
    match scanString rest with
    | none => none
    | some (_, r) => skipComposite fuel depth r
  | fuel + 1, depth, c :: rest =>
    if c == '{' || c == '[' then skipComposite fuel (depth + 1) rest
    else if c == '}' || c == ']' then
      if depth ≤ 1 then some rest else skipComposite fuel (depth - 1) rest
    else skipComposite fuel depth rest

/-- End of a number or literal. -/
def isDelimiter (c : Char) : Bool :=
  isSpace c || c == ',' || c == '}' || c == ']'

/-- Skips one value at the start of the input (no leading whitespace): the
input after the value, `none` when there is no complete value. -/
def skipValue (s : List Char) : Option (List Char) :=
  match s with
  | [] => none
  | '"' :: rest => (scanString rest).map Prod.snd
  | c :: rest =>
    if c == '{' || c == '[' then skipComposite (rest.length + 1) 1 rest
    else if isDelimiter c || c == ':' then none
    else some (rest.dropWhile (fun d => !isDelimiter d))

/-- Outcome of a scan for a field. -/
inductive Scan where
  | found (raw : List Char) (rest : List Char)
  | absent (rest : List Char)
  | malformed
  deriving DecidableEq, Repr

/-- Walks the members of an object, in document order, from the start of a
member: the raw bytes after the colon of the first member named `target`. -/
def locateMembers (target : String) : Nat → List Char → Scan
  | 0, _ => .malformed
  | fuel + 1, input =>
    match skipSpace input with
    | '"' :: r1 =>
      match scanString r1 with
      | none => .malformed
      | some (key, r2) =>
        match skipSpace r2 with
        | ':' :: r3 =>
          match skipValue (skipSpace r3) with
          | none => .malformed
          | some r4 =>
            if String.mk key == target then
              .found (r3.take (r3.length - r4.length)) r4
            else
              match skipSpace r4 with
              | ',' :: r5 => locateMembers target fuel r5
              | '}' :: r5 => .absent r5
              | _ => .malformed
        | _ => .malformed
    | _ => .malformed

/-- The scan of an object from its opening brace. -/
def locateInObject (target : String) (input : List Char) : Scan :=
  match skipSpace input with
  | '{' :: r =>
    match skipSpace r with
    | '}' :: r1 => .absent r1
    | _ => locateMembers target (r.length + 1) r
  | _ => .malformed

/-- Modelled from the spec: `locateObjectField`, the lookahead scanner, which
is not in the sources at hand: "given a cursor positioned at `{`, scans the
object's top-level key/value pairs in document order, comparing each key to
`fieldName`; on match, returns the raw bytes of that key's value"; an absent
field gives no bytes and no error, a malformed stream sets the stream's
error. The cursor is left where the scan stopped. -/
def locateObjectField (iter : Iterator) (field : String) : List Char × Iterator :=
  match locateInObject field (iter.buf.drop iter.head) with
  | .found raw rest => (raw, { iter with head := iter.buf.length - rest.length })
  | .absent rest => ([], { iter with head := iter.buf.length - rest.length })
  | .malformed =>
    ([], { iter with
      head := iter.buf.length
      Error := some (Errorf "%s: unexpected end of input or character" ["ReadObjectCB"]) })

/-- Modelled from the spec: `Iterator.ReadNil`, which is not in the sources at
hand: whether "the next token is JSON null"; the token is consumed when it
is, and the cursor stays on the token when it is not. -/
def ReadNil (iter : Iterator) : Bool × Iterator :=
  let rest := skipSpace (iter.buf.drop iter.head)
  match rest with
  | 'n' :: 'u' :: 'l' :: 'l' :: r => (true, { iter with head := iter.buf.length - r.length })
  | _ => (false, { iter with head := iter.buf.length - rest.length })

/-- The hexadecimal digits. -/
def hexDigits : List Char :=
  "0123456789abcdef".toList

/-- The value of a hexadecimal digit. -/
def hexVal (c : Char) : Option Nat :=
  if hexDigits.indexOf c < 16 then some (hexDigits.indexOf c) else none

/-- Where the reader of a string content stands: in plain text, after a
backslash, or in a `\u` escape with digits to come. -/
inductive EscState where
  | plain
  | escaped
  | hex (remaining : Nat) (acc : Nat)
  deriving DecidableEq, Repr

/-- Removes the escapes of a raw string content, from a reader state. -/
def unescapeFrom : EscState → List Char → Option (List Char)
  | .plain, [] => some []
  | .escaped, [] => none
  | .hex _ _, [] => none
  | .plain, c :: rest =>
    if c == '\\' then unescapeFrom .escaped rest
    else (unescapeFrom .plain rest).map (fun s => c :: s)
  | .escaped, e :: rest =>
    if e == '"' || e == '\\' || e == '/' then (unescapeFrom .plain rest).map (fun s => e :: s)
    else if e == 'n' then (unescapeFrom .plain rest).map (fun s => '\n' :: s)
    else if e == 't' then (unescapeFrom .plain rest).map (fun s => '\t' :: s)
    else if e == 'r' then (unescapeFrom .plain rest).map (fun s => '\r' :: s)
    else if e == 'u' then unescapeFrom (.hex 4 0) rest
    else none
  | .hex 0 _, _ :: _ => none
  | .hex (k + 1) acc, c :: rest =>
    match hexVal c with
    | none => none
    | some v =>
      if k = 0 then (unescapeFrom .plain rest).map (fun s => Char.ofNat (acc * 16 + v) :: s)
      else unescapeFrom (.hex k (acc * 16 + v)) rest

/-- Removes the escapes of a raw string content. -/
def unescape (s : List Char) : Option (List Char) :=
  unescapeFrom .plain s

/-- Modelled from the spec: `Iterator.ReadString`, which is not in the sources
at hand: reads the JSON string at the cursor and returns its content. -/
def ReadString (iter : Iterator) : List Char × Iterator :=
  let fail : List Char × Iterator :=
    ([], { iter with
      head := iter.buf.length
      Error := some (Errorf "%s: expects a string" ["ReadString"]) })
  match skipSpace (iter.buf.drop iter.head) with
  | '"' :: r =>
    match scanString r with
    | none => fail
    | some (raw, rest) =>
      match unescape raw with
      | none => fail
      | some s => (s, { iter with head := iter.buf.length - rest.length })
  | _ => fail

/-- Reads the members of an object whose values are JSON strings, from the
start of a member: the fields and the input after the closing brace. -/
def readMembers : Nat → List Char → Option (List (String × String) × List Char)
  | 0, _ => none
  | fuel + 1, input =>
    match skipSpace input with
    | '"' :: r1 =>
      match scanString r1 with
      | none => none
      | some (key, r2) =>
        match skipSpace r2 with
        | ':' :: r3 =>
          match skipSpace r3 with
          | '"' :: r4 =>
            match scanString r4 with
            | none => none
            | some (val, r5) =>
              match skipSpace r5 with
              | ',' :: r6 =>
                match readMembers fuel r6 with
                | none => none
                | some (fs, r7) => some ((String.mk key, String.mk val) :: fs, r7)
              | '}' :: r6 => some ([(String.mk key, String.mk val)], r6)
              | _ => none
          | _ => none
        | _ => none
    | _ => none

/-- Modelled from the spec: `Iterator.ReadVal`, which is not in the sources at
hand: "decode current object body into a pre-allocated instance of type T",
here for instances whose fields are strings. A cursor in error and a target
that is not an instance decode nothing. -/
def ReadVal (obj : IfaceVal) (iter : Iterator) (w : World) : Iterator × World :=
  match iter.Error, obj with
  | none, .obj typ a =>
    let fail : Iterator × World :=
      ({ iter with
        head := iter.buf.length
        Error := some (Errorf "%s: expects an object of string fields" ["ReadVal"]) }, w)
    match skipSpace (iter.buf.drop iter.head) with
    | '{' :: r =>
      match readMembers (r.length + 1) r with
      | none => fail
      | some (fs, rest) =>
        ({ iter with head := iter.buf.length - rest.length },
          { w with objs := Function.update w.objs a (some ⟨typ, fs⟩) })
    | _ => fail
  | _, _ => (iter, w)

/-- The host codec used for concrete runs. -/
def specHost : Host :=
  ⟨ReadNil, ReadString, locateObjectField, ReadVal⟩

/-! ## The string-key encoder -/

/-- The output stream `Stream`: the bytes its writer has received (for the
private stream of the encoder, the contents of its `bytes.Buffer`), the bytes
still pending, and the error state. -/
structure Stream where
  out : List Char
  buf : List Char
  Error : Option GoError
  deriving DecidableEq, Repr

/-- Modelled from the spec: `NewStream`, which is not in the sources at hand:
the private stream `NewStream(e.ctx, buf, 64*1024)` over an empty, "isolated
buffer", with nothing pending and no error. -/
def NewStream : Stream :=
  ⟨[], [], none⟩

/-- The primitives the string-key encoder calls. -/
structure EncHost where
  /-- the wrapped encoder: `e.enc.Encode(ptr, str)` -/
  Encode : Addr → Stream → Stream
  /-- `str.Flush()`: the returned error and the stream afterwards -/
  Flush : Stream → Option GoError × Stream
  /-- `stream.WriteStringWithHTMLEscaped(s)` -/
  WriteStringWithHTMLEscaped : List Char → Stream → Stream

/-- The method `keyAsStringEncoder.Encode`. -/
def keyAsStringEncoder.Encode (h : EncHost) (ptr : Addr) (stream : Stream) : Stream :=
  let str := h.Encode ptr NewStream
  match str.Error with
  | some e => { stream with Error := some e }
  | none =>
    let err := (h.Flush str).1
    let str := (h.Flush str).2
    match err with
    | some e => { stream with Error := some e }
    | none => h.WriteStringWithHTMLEscaped str.out stream

/-- Modelled from the spec: `Stream.Flush`, which is not in the sources at
hand: a stream in error returns its error; otherwise the pending bytes go to
the writer. -/
def Flush (s : Stream) : Option GoError × Stream :=
  match s.Error with
  | some e => (some e, s)
  | none => (none, { s with out := s.out ++ s.buf, buf := [] })

/-- The hexadecimal digit of a number below 16. -/
def hexDigit (n : Nat) : Char :=
  hexDigits.getD n '0'

/-- The escape of one character in a JSON string, HTML characters included. -/
def escapeChar (c : Char) : List Char :=
  if c == '"' then ['\\', '"']
  else if c == '\\' then ['\\', '\\']
  else if c == '\n' then ['\\', 'n']
  else if c == '\r' then ['\\', 'r']
  else if c == '\t' then ['\\', 't']
  else if c.toNat < 32 || c == '<' || c == '>' || c == '&' then
    ['\\', 'u', '0', '0', hexDigit (c.toNat / 16), hexDigit (c.toNat % 16)]
  else [c]

/-- The escaped content of a JSON string. -/
def escape (s : List Char) : List Char :=
  s.flatMap escapeChar

/-- Modelled from the spec: `Stream.WriteStringWithHTMLEscaped`, which is not
in the sources at hand: "re-emit them as one escaped JSON string in the outer
stream ... with control characters and quotes escaped per standard JSON string
rules". -/
def WriteStringWithHTMLEscaped (s : List Char) (stream : Stream) : Stream :=
  { stream with buf := stream.buf ++ jsonString (escape s) }

/-- An encoder host whose wrapped encoder writes a given text, or fails with a
given error, on the private stream. -/
def textEncHost (text : List Char) (fail : Option GoError) : EncHost :=
  ⟨fun _ str => { str with buf := str.buf ++ text, Error := fail }, Flush,
    WriteStringWithHTMLEscaped⟩

/-! ## The types of the tests -/

/-- The interface `Intf` of the tests. -/
def Intf : GoType := .iface "jsoniter.Intf" 1

/-- The struct `ImplA` of the tests. -/
def ImplA : GoType := .struct "jsoniter.ImplA"

/-- The struct `ImplB` of the tests. -/
def ImplB : GoType := .struct "jsoniter.ImplB"

/-- The types the test program links in: `*ImplA` and `*ImplB` implement
`Intf`. -/
def testEnv : TypeEnv where
  TypeByName n :=
    if n = "jsoniter.ImplA" then some ImplA
    else if n = "jsoniter.ImplB" then some ImplB
    else if n = "jsoniter.Cplx" then some (.struct "jsoniter.Cplx")
    else none
  Implements t i := (t == .ptr ImplA || t == .ptr ImplB) && i == Intf

/-- The configuration of `TestTypeMappingDecode`. -/
def testTypeMap : TypeMapping :=
  ⟨some (.ptr Intf), "type", [("ImplA", "jsoniter.ImplA"), ("ImplB", "jsoniter.ImplB")]⟩

/-- The binding `newTypeMapping` makes of `testTypeMap`. -/
def testBinding : typeMapping :=
  ⟨Intf, "type", [("ImplB", some ImplB), ("ImplA", some ImplA)]⟩

/-- A memory with nothing allocated and every cell nil. -/
def emptyWorld : World :=
  ⟨fun _ => .nil, fun _ => [], fun _ => none, 0, []⟩

/-- The context of the field `Intf` of a `Cplx`, stored at address 0. -/
def cplxCtx : mappingCtx :=
  ⟨.Struct [("Intf", 0)], some "Intf", 0, ""⟩

/-- A fresh cursor over a text. -/
def cursor (s : String) : Iterator :=
  ⟨s.toList, 0, none⟩

/-- A configuration whose discriminator value begins with a space. -/
def spacedTypeMap : TypeMapping :=
  ⟨some (.ptr Intf), "type", [(" A", "jsoniter.ImplA")]⟩

/-- The binding `newTypeMapping` makes of `spacedTypeMap`. -/
def spacedBinding : typeMapping :=
  ⟨Intf, "type", [(" A", some ImplA)]⟩

/-- A configuration naming a type that does not implement the interface. -/
def cplxTypeMap : TypeMapping :=
  ⟨some (.ptr Intf), "type", [("ImplA", "jsoniter.ImplA"), ("Cplx", "jsoniter.Cplx")]⟩

/-- A memory whose cell 0 already holds an instance of `ImplA`. -/
def populatedWorld : World :=
  ⟨fun a => if a = 0 then .obj ImplA 0 else .nil, fun _ => [],
    fun a => if a = 0 then some ⟨ImplA, [("type", "ImplA")]⟩ else none, 1, []⟩

/-- Modelled from the spec: the encoder of the host codec, which is not in the
sources at hand: "encode value of type T into a stream", here for instances
whose fields are strings that need no escape. -/
def Marshal (x : Instance) : List Char :=
  '{' :: (List.intercalate [','] (x.fields.map (fun p =>
    jsonString p.1.toList ++ ':' :: jsonString p.2.toList))) ++ ['}']

/-- A configuration whose discriminator value is the text `0`. -/
def numTypeMap : TypeMapping :=
  ⟨some (.ptr Intf), "type", [("0", "jsoniter.ImplA")]⟩

/-- The binding `newTypeMapping` makes of `numTypeMap`. -/
def numBinding : typeMapping :=
  ⟨Intf, "type", [("0", some ImplA)]⟩

/-- The instance `NewA("abcd")` of the tests. -/
def implAInstance : Instance :=
  ⟨ImplA, [("type", "ImplA"), ("a", "abcd")]⟩

/-- An `ImplA` whose discriminator field holds the value registered by
`spacedTypeMap`. -/
def spacedInstance : Instance :=
  ⟨ImplA, [("type", " A"), ("a", "abcd")]⟩

/-! ## The resolution step -/

/-- The lookup of the discriminator, as `DynDecode` and `DynDecodeKey` both
write it: `start := iter.head`, `typeValue := locateObjectField(iter,
typMap.typeField)`, `iter.head = start`. The raw value and the cursor
afterwards. -/
def locateTypeField (h : Host) (typeField : String) (iter : Iterator) :
    List Char × Iterator :=
  let start := iter.head
  let typeValue := (h.locateObjectField iter typeField).1
  let iter := (h.locateObjectField iter typeField).2
  (typeValue, { iter with head := start })

/-! ## The extension for string keys -/

/-- The interface `ValEncoder` of the host codec. -/
structure ValEncoder where
  IsEmpty : Addr → Bool
  Encode : Addr → Stream → Stream

/-- The configured `API`, as far as the extension calls it: `EncoderOf`, with
`none` for a nil encoder. -/
structure API where
  EncoderOf : GoType → Option ValEncoder

/-- The extension `KeyAsStringEncoderExt`: the configured API, the interface
implemented by keys (`none` for nil) and the concrete types (an entry is
`none` for a nil type). -/
structure KeyAsStringEncoderExt where
  ctx : API
  intfType : Option GoType
  types : List (Option GoType)

/-- The encoder `keyAsStringEncoder`: the configured API and the wrapped
encoder. -/
structure keyAsStringEncoder where
  ctx : API
  enc : ValEncoder

/-- The method `keyAsStringEncoder.IsEmpty`. -/
def keyAsStringEncoder.IsEmpty (_e : keyAsStringEncoder) (_ptr : Addr) : Bool :=
  false

/-- The function `NewKeyAsStringEncoderExt`. -/
def NewKeyAsStringEncoderExt (ctx : API) (intfType : Option GoType)
    (types : List (Option GoType)) : KeyAsStringEncoderExt :=
  ⟨ctx, intfType, types⟩

/-- The `range e.types` loop of `inTypes`: `typ == t || reflect2.PtrTo(t) ==
typ`. On a nil entry the comparison `typ == t` is false and `PtrTo` of the nil
type panics. -/
def inTypes_loop (typ : GoType) : List (Option GoType) → Except String Bool
  | [] => .ok false
  | none :: _ => .error "invalid memory address or nil pointer dereference"
  | some t :: rest =>
    if typ = t ∨ GoType.ptr t = typ then .ok true else inTypes_loop typ rest

/-- The method `KeyAsStringEncoderExt.inTypes`. The `Except` side is a panic. -/
def KeyAsStringEncoderExt.inTypes (e : KeyAsStringEncoderExt) (typ : GoType) :
    Except String Bool :=
  inTypes_loop typ e.types

/-- The method `KeyAsStringEncoderExt.asInterface`. The reflection library
panics in `Implements` when its argument is not of interface kind. -/
def KeyAsStringEncoderExt.asInterface (env : TypeEnv) (e : KeyAsStringEncoderExt)
    (typ : GoType) : Except String Bool :=
  match e.intfType with
  | none => .ok false
  | some intfType =>
    if intfType.Kind = .Interface then
      .ok (env.Implements typ intfType || decide (typ = intfType))
    else
      .error "reflect: non-interface type passed to Type.Implements"

/-- The method `KeyAsStringEncoderExt.CreateMapKeyEncoder`: the returned
encoder, `none` for nil. The `Except` side is a panic. -/
def KeyAsStringEncoderExt.CreateMapKeyEncoder (env : TypeEnv) (e : KeyAsStringEncoderExt)
    (typ : GoType) : Except String (Option keyAsStringEncoder) :=
  match e.asInterface env typ with
  | .error p => .error p
  | .ok isIntf =>
    -- `!e.asInterface(typ) && !e.inTypes(typ)`: the list is consulted only
    -- when the interface does not match
    let listed : Except String Bool := if isIntf then .ok true else e.inTypes typ
    match listed with
    | .error p => .error p
    | .ok false => .ok none
    | .ok true =>
      match e.ctx.EncoderOf typ with
      | none => .ok none
      | some enc => .ok (some ⟨e.ctx, enc⟩)

/-- The interface `SpecKeyIf` of the tests. -/
def SpecKeyIf : GoType := .iface "jsoniter.SpecKeyIf" 1

/-- The struct `SpecKeyVideo` of the tests. -/
def SpecKeyVideo : GoType := .struct "jsoniter.SpecKeyVideo"

/-- The struct `SpecKeyAudio` of the tests. -/
def SpecKeyAudio : GoType := .struct "jsoniter.SpecKeyAudio"

/-- The key types of the tests: `SpecKeyVideo` and `SpecKeyAudio`, their
pointer types and `SpecKeyIf` itself implement `SpecKeyIf`. -/
def keyEnv : TypeEnv where
  TypeByName n :=
    if n = "jsoniter.SpecKeyVideo" then some SpecKeyVideo
    else if n = "jsoniter.SpecKeyAudio" then some SpecKeyAudio
    else none
  Implements t i :=
    (t == SpecKeyVideo || t == .ptr SpecKeyVideo || t == SpecKeyAudio
      || t == .ptr SpecKeyAudio || t == SpecKeyIf) && i == SpecKeyIf

/-- An encoder that writes nothing. -/
def emptyEncoder : ValEncoder :=
  ⟨fun _ => true, fun _ stream => stream⟩

/-- An API with an encoder for every type. -/
def testAPI : API :=
  ⟨fun _ => some emptyEncoder⟩

/-- The extension `NewKeyAsStringEncoderExt(encIntf, nil, concreteTypes...)` of
`TestMapKeysAsString`. -/
def structsExt : KeyAsStringEncoderExt :=
  NewKeyAsStringEncoderExt testAPI none [some SpecKeyVideo, some SpecKeyAudio]

/-- An extension with the capability interface `SpecKeyIf` and an allow-list
of two structs. -/
def bothExt : KeyAsStringEncoderExt :=
  NewKeyAsStringEncoderExt testAPI (some SpecKeyIf) [some SpecKeyVideo, some SpecKeyAudio]

/-- An extension whose allow-list begins with a nil type, as
`reflect2.TypeByName` returns for a name that is not linked in. -/
def nilEntryExt : KeyAsStringEncoderExt :=
  NewKeyAsStringEncoderExt testAPI none [none, some SpecKeyVideo]

/-- An extension whose capability type is a struct, not an interface. -/
def structCapabilityExt : KeyAsStringEncoderExt :=
  NewKeyAsStringEncoderExt testAPI (some SpecKeyVideo) []

/-- A binding whose discriminator value is the six characters `\u0041`: a
backslash, `u`, and four digits. -/
def escapedBinding : typeMapping :=
  ⟨Intf, "type", [("\\u0041", some ImplA)]⟩

/-! ## Lemmas on maps and trimming -/

theorem lookup_filter_ne {β : Type} (m : List (String × β)) (k k' : String) :
    (m.filter (fun p => !(p.1 == k))).lookup k' = if k' = k then none else m.lookup k' := by
  induction m with
  | nil => simp
  | cons p m ih =>
    obtain ⟨a, b⟩ := p
    by_cases hak : a = k
    · subst hak
      by_cases hk : k' = a
      · subst hk; simp [List.filter_cons, ih]
      · have : (k' == a) = false := by simpa using hk
        simp [List.filter_cons, ih, hk, List.lookup_cons, this]
    · have h1 : (a == k) = false := by simpa using hak
      by_cases hk : k' = k
      · subst hk
        have h2 : (k' == a) = false := by simpa using (Ne.symm hak)
        simp [List.filter_cons, h1, List.lookup_cons, h2, ih]
      · simp [List.filter_cons, h1, List.lookup_cons, ih, hk]

theorem lookup_mapSet {β : Type} (m : List (String × β)) (k k' : String) (v : β) :
    (mapSet m k v).lookup k' = if k' = k then some v else m.lookup k' := by
  unfold mapSet
  by_cases hk : k' = k
  · subst hk; simp [List.lookup_cons]
  · have : (k' == k) = false := by simpa using hk
    simp [List.lookup_cons, this, lookup_filter_ne, hk]

theorem lookup_eq_none_of_not_mem_keys {β : Type} (l : List (String × β)) (k : String)
    (hk : k ∉ l.map Prod.fst) : l.lookup k = none := by
  induction l with
  | nil => rfl
  | cons p l ih =>
    obtain ⟨a, b⟩ := p
    simp only [List.map_cons, List.mem_cons, not_or] at hk
    have : (k == a) = false := by simpa using hk.1
    simp [List.lookup_cons, this, ih hk.2]

theorem dropWhile_append_singleton (p : Char → Bool) (l : List Char) (q : Char)
    (hq : p q = true) :
    (l ++ [q]).dropWhile p = if l.all p then [] else l.dropWhile p ++ [q] := by
  induction l with
  | nil => simp [List.dropWhile, hq]
  | cons c l ih =>
    by_cases hc : p c = true
    · simp [List.dropWhile_cons, hc, ih]
    · simp [List.dropWhile_cons, hc]

theorem dropWhile_eq_nil_of_all (p : Char → Bool) (l : List Char) (h : l.all p = true) :
    l.dropWhile p = [] := by
  induction l with
  | nil => rfl
  | cons c l ih =>
    simp only [List.all_cons, Bool.and_eq_true] at h
    simp [List.dropWhile_cons, h.1, ih h.2]

theorem trim_both_ends (p : Char → Bool) (content : List Char) (q : Char) (hq : p q = true) :
    (((q :: (content ++ [q])).dropWhile p).reverse.dropWhile p).reverse
      = ((content.dropWhile p).reverse.dropWhile p).reverse := by
  have h1 : (q :: (content ++ [q])).dropWhile p = (content ++ [q]).dropWhile p := by
    rw [List.dropWhile_cons, if_pos hq]
  rw [h1, dropWhile_append_singleton _ _ _ hq]
  by_cases hall : content.all p = true
  · rw [if_pos hall, dropWhile_eq_nil_of_all _ _ hall]
  · rw [if_neg hall, List.reverse_append, List.reverse_singleton, List.singleton_append,
      List.dropWhile_cons, if_pos hq]

/-- Trimming a quoted content is trimming the content. -/
theorem Trim_jsonString (content : List Char) :
    Trim (jsonString content) ['"', ' '] = Trim content ['"', ' '] :=
  trim_both_ends (fun c => ['"', ' '].contains c) content '"' (by decide)

/-! ## Lemmas on registration -/

theorem newTypeMapping_loop_lookup (env : TypeEnv) (intfType : GoType) :
    ∀ (l : List (String × String)) (acc res : List (String × Option GoType)),
      (l.map Prod.fst).Nodup →
      newTypeMapping_loop env intfType l acc = .ok res →
      ∀ k, res.lookup k =
        match (l.lookup k).bind env.TypeByName with
        | some T => some (some T)
        | none => acc.lookup k := by
  intro l
  induction l with
  | nil =>
    intro acc res _ h k
    simp only [newTypeMapping_loop, Except.ok.injEq] at h
    subst h; simp
  | cons p l ih =>
    obtain ⟨typeName, subtyp⟩ := p
    intro acc res hnd h k
    simp only [List.map_cons, List.nodup_cons] at hnd
    unfold newTypeMapping_loop at h
    cases hT : env.TypeByName subtyp with
    | none =>
      simp only [hT] at h
      have := ih acc res hnd.2 h k
      rw [this]
      by_cases hk : k = typeName
      · subst hk
        simp [List.lookup_cons, hT, lookup_eq_none_of_not_mem_keys l k hnd.1]
      · have : (k == typeName) = false := by simpa using hk
        simp [List.lookup_cons, this]
    | some subType =>
      simp only [hT] at h
      split at h
      · cases h
      · have := ih _ res hnd.2 h k
        rw [this, lookup_mapSet]
        by_cases hk : k = typeName
        · subst hk
          simp [List.lookup_cons, hT, lookup_eq_none_of_not_mem_keys l k hnd.1]
        · have : (k == typeName) = false := by simpa using hk
          simp [List.lookup_cons, this, hk]

theorem newTypeMapping_loop_ok_iff (env : TypeEnv) (intfType : GoType) :
    ∀ (l : List (String × String)) (acc : List (String × Option GoType)),
      (∃ res, newTypeMapping_loop env intfType l acc = .ok res) ↔
      ∀ p ∈ l, ∀ T, env.TypeByName p.2 = some T → env.Implements (.ptr T) intfType = true := by
  intro l
  induction l with
  | nil => intro acc; simp [newTypeMapping_loop]
  | cons p l ih =>
    obtain ⟨typeName, subtyp⟩ := p
    intro acc
    unfold newTypeMapping_loop
    cases hT : env.TypeByName subtyp with
    | none =>
      simp only [ih acc, List.mem_cons, forall_eq_or_imp, hT]
      simp
    | some subType =>
      by_cases himp : env.Implements (.ptr subType) intfType = true
      · simp only [himp, Bool.not_true, Bool.false_eq_true, ↓reduceIte, ih, List.mem_cons,
          forall_eq_or_imp, hT, Option.some.injEq]
        constructor
        · intro h
          exact ⟨fun T hTT => hTT ▸ himp, h⟩
        · intro h; exact h.2
      · simp only [himp, Bool.not_false, ↓reduceIte, List.mem_cons, forall_eq_or_imp, hT,
          Option.some.injEq, forall_eq']
        constructor
        · rintro ⟨res, h⟩; cases h
        · rintro ⟨h, _⟩; cases h

theorem newTypeMapping_loop_implements (env : TypeEnv) (intfType : GoType) :
    ∀ (l : List (String × String)) (acc res : List (String × Option GoType)),
      (∀ k v, acc.lookup k = some v →
        ∃ T, v = some T ∧ env.Implements (.ptr T) intfType = true) →
      newTypeMapping_loop env intfType l acc = .ok res →
      ∀ k v, res.lookup k = some v →
        ∃ T, v = some T ∧ env.Implements (.ptr T) intfType = true := by
  intro l
  induction l with
  | nil =>
    intro acc res hacc h
    simp only [newTypeMapping_loop, Except.ok.injEq] at h
    subst h; exact hacc
  | cons p l ih =>
    obtain ⟨typeName, subtyp⟩ := p
    intro acc res hacc h
    unfold newTypeMapping_loop at h
    cases hT : env.TypeByName subtyp with
    | none =>
      simp only [hT] at h
      exact ih acc res hacc h
    | some subType =>
      simp only [hT] at h
      split at h
      · cases h
      · rename_i himp
        refine ih _ res ?_ h
        intro k v hk
        rw [lookup_mapSet] at hk
        split at hk
        · cases hk
          exact ⟨subType, rfl, by simpa using himp⟩
        · exact hacc k v hk

/-! ## Lemmas on resolution -/

theorem newObjectPtr_of_lookup_none (typMap : typeMapping) (raw : List Char) (w : World)
    (hkey : typMap.subTypes.lookup (String.mk (Trim raw ['"', ' '])) = none) :
    newObjectPtr typMap raw w =
      (.error (Errorf "typeMapping decoder: type '%s' not found"
        [String.mk (Trim raw ['"', ' '])]), w) := by
  simp only [newObjectPtr, hkey]

theorem newObjectPtr_of_lookup_some (typMap : typeMapping) (raw : List Char) (w : World)
    (T : GoType)
    (hkey : typMap.subTypes.lookup (String.mk (Trim raw ['"', ' '])) = some (some T)) :
    newObjectPtr typMap raw w =
      (.ok (.obj T w.next),
        { w with
          next := w.next + 1
          objs := Function.update w.objs w.next (some (Instance.zero T))
          trace := w.trace ++ [.UnsafeNew T w.next] }) := by
  simp only [newObjectPtr, hkey]

/-- What `DynDecode` does once the slot is nil, the token is not null and the
scan left no error: resolution, then assignment, then the host decode. -/
theorem DynDecode_resolution (h : Host) (typMap : typeMapping) (decCtx : mappingCtx)
    (ptr : Addr) (iter : Iterator) (w : World)
    (hnull : (h.ReadNil iter).1 = false) (hslot : IsNil (w.cells ptr) = true)
    (hscan : (h.locateObjectField (h.ReadNil iter).2 typMap.typeField).2.Error = none) :
    DynDecode h typMap decCtx ptr iter w =
      match newObjectPtr typMap (h.locateObjectField (h.ReadNil iter).2 typMap.typeField).1
          ((w.log .ReadNil).log (.locateObjectField typMap.typeField (h.ReadNil iter).2.head)) with
      | (.error err, w1) =>
        .ok ({ (h.locateObjectField (h.ReadNil iter).2 typMap.typeField).2 with
          head := (h.ReadNil iter).2.head, Error := some err }, w1)
      | (.ok newObj, w1) =>
        match setContainer typMap decCtx newObj w1 with
        | .error p => .error p
        | .ok (.error err) =>
          .ok ({ (h.locateObjectField (h.ReadNil iter).2 typMap.typeField).2 with
            head := (h.ReadNil iter).2.head, Error := some err }, w1)
        | .ok (.ok w2) =>
          .ok (h.ReadVal newObj
            { (h.locateObjectField (h.ReadNil iter).2 typMap.typeField).2 with
              head := (h.ReadNil iter).2.head }
            (w2.log (.ReadVal newObj (h.ReadNil iter).2.head))) := by
  have hslot' : IsNil ((w.log .ReadNil).cells ptr) = true := hslot
  simp only [DynDecode, hnull, hslot', hscan, Bool.false_eq_true, ↓reduceIte]

/-- `DynDecode` on a raw discriminator value that resolves to no variant. -/
theorem DynDecode_of_lookup_none (h : Host) (typMap : typeMapping) (decCtx : mappingCtx)
    (ptr : Addr) (iter : Iterator) (w : World)
    (hnull : (h.ReadNil iter).1 = false) (hslot : IsNil (w.cells ptr) = true)
    (hscan : (h.locateObjectField (h.ReadNil iter).2 typMap.typeField).2.Error = none)
    (hkey : typMap.subTypes.lookup (String.mk
      (Trim (h.locateObjectField (h.ReadNil iter).2 typMap.typeField).1 ['"', ' '])) = none) :
    DynDecode h typMap decCtx ptr iter w =
      .ok ({ (h.locateObjectField (h.ReadNil iter).2 typMap.typeField).2 with
          head := (h.ReadNil iter).2.head
          Error := some (Errorf "typeMapping decoder: type '%s' not found"
            [String.mk (Trim (h.locateObjectField (h.ReadNil iter).2 typMap.typeField).1
              ['"', ' '])]) },
        (w.log .ReadNil).log (.locateObjectField typMap.typeField (h.ReadNil iter).2.head)) := by
  rw [DynDecode_resolution h typMap decCtx ptr iter w hnull hslot hscan,
    newObjectPtr_of_lookup_none typMap _ _ hkey]

/-- `DynDecodeKey` on a raw discriminator value that resolves to no variant. -/
theorem DynDecodeKey_of_lookup_none (h : Host) (typMap : typeMapping)
    (iter : Iterator) (w : World)
    (hnull : (h.ReadNil iter).1 = false)
    (hkeystr : (h.ReadString (h.ReadNil iter).2).2.Error = none)
    (hscan : (h.locateObjectField (BorrowIterator (h.ReadString (h.ReadNil iter).2).1)
      typMap.typeField).2.Error = none)
    (hkey : typMap.subTypes.lookup (String.mk
      (Trim (h.locateObjectField (BorrowIterator (h.ReadString (h.ReadNil iter).2).1)
        typMap.typeField).1 ['"', ' '])) = none) :
    DynDecodeKey h typMap iter w =
      .ok ((.nil, some (Errorf "typeMapping decoder: type '%s' not found"
          [String.mk (Trim (h.locateObjectField
            (BorrowIterator (h.ReadString (h.ReadNil iter).2).1) typMap.typeField).1
            ['"', ' '])])),
        (h.ReadString (h.ReadNil iter).2).2,
        ((w.log .ReadNil).log .ReadString).log (.locateObjectField typMap.typeField 0)) := by
  simp only [DynDecodeKey, hnull, hkeystr, hscan, Bool.false_eq_true, ↓reduceIte,
    newObjectPtr_of_lookup_none typMap _ _ hkey]
  rfl

/-! ## C3: unknown variants -/

/-- C3, as stated, fails: the JSON string `" ImplA"` has the content ` ImplA`
(with a leading space), which is not a key of the variant map of the tests,
and yet `newObjectPtr` resolves it and creates an instance of `ImplA`. The
JSON string `"\u0041"` has the content `A`, which is not a key of a
variant map whose only key is the six characters `\u0041`, and yet
`newObjectPtr` resolves it: the lookup is on the raw text between the quotes. -/
theorem unknown_variant_counterexample :
    testBinding.subTypes.lookup (String.mk " ImplA".toList) = none
    ∧ (newObjectPtr testBinding (jsonString " ImplA".toList) emptyWorld).1
        = .ok (.obj ImplA 0)
    ∧ (newObjectPtr testBinding (jsonString " ImplA".toList) emptyWorld).2.objs 0
        = some (Instance.zero ImplA)
    ∧ unescape "\\u0041".toList = some "A".toList
    ∧ escapedBinding.subTypes.lookup "A" = none
    ∧ (newObjectPtr escapedBinding (jsonString "\\u0041".toList) emptyWorld).1
        = .ok (.obj ImplA 0) := by
  decide

/-- C3 (amended): for every binding and every JSON string discriminator value
whose raw text between the quotes (the string content when the string is
written without escapes; the code never unescapes), once the quotes and spaces
at both of its ends are trimmed, is not a key of the variant map,
`newObjectPtr` fails with the unknown-variant error naming the trimmed text
and leaves the memory as it was; `DynDecode` then ends with that error in the
cursor, and `DynDecodeKey` returns a nil instance with that error; neither
allocates nor writes anything. -/
theorem unknown_variant_rejected (typMap : typeMapping) (content : List Char) (w : World)
    (hkey : typMap.subTypes.lookup (String.mk (Trim content ['"', ' '])) = none) :
    newObjectPtr typMap (jsonString content) w =
        (.error (Errorf "typeMapping decoder: type '%s' not found"
          [String.mk (Trim content ['"', ' '])]), w)
    ∧ (∀ (h : Host) (decCtx : mappingCtx) (ptr : Addr) (iter : Iterator),
        (h.ReadNil iter).1 = false → IsNil (w.cells ptr) = true →
        (h.locateObjectField (h.ReadNil iter).2 typMap.typeField).1 = jsonString content →
        (h.locateObjectField (h.ReadNil iter).2 typMap.typeField).2.Error = none →
        DynDecode h typMap decCtx ptr iter w =
          .ok ({ (h.locateObjectField (h.ReadNil iter).2 typMap.typeField).2 with
              head := (h.ReadNil iter).2.head
              Error := some (Errorf "typeMapping decoder: type '%s' not found"
                [String.mk (Trim content ['"', ' '])]) },
            (w.log .ReadNil).log
              (.locateObjectField typMap.typeField (h.ReadNil iter).2.head)))
    ∧ (∀ (h : Host) (iter : Iterator),
        (h.ReadNil iter).1 = false →
        (h.ReadString (h.ReadNil iter).2).2.Error = none →
        (h.locateObjectField (BorrowIterator (h.ReadString (h.ReadNil iter).2).1)
          typMap.typeField).1 = jsonString content →
        (h.locateObjectField (BorrowIterator (h.ReadString (h.ReadNil iter).2).1)
          typMap.typeField).2.Error = none →
        DynDecodeKey h typMap iter w =
          .ok ((.nil, some (Errorf "typeMapping decoder: type '%s' not found"
              [String.mk (Trim content ['"', ' '])])),
            (h.ReadString (h.ReadNil iter).2).2,
            ((w.log .ReadNil).log .ReadString).log
              (.locateObjectField typMap.typeField 0))) := by
  have hk : typMap.subTypes.lookup (String.mk (Trim (jsonString content) ['"', ' '])) = none := by
    rw [Trim_jsonString]; exact hkey
  refine ⟨?_, ?_, ?_⟩
  · rw [newObjectPtr_of_lookup_none typMap _ _ hk, Trim_jsonString]
  · intro h decCtx ptr iter hnull hslot hraw hscan
    rw [DynDecode_of_lookup_none h typMap decCtx ptr iter w hnull hslot hscan
      (by rw [hraw]; exact hk), hraw, Trim_jsonString]
  · intro h iter hnull hkeystr hraw hscan
    rw [DynDecodeKey_of_lookup_none h typMap iter w hnull hkeystr hscan
      (by rw [hraw]; exact hk), hraw, Trim_jsonString]

/-- C3 witness: the value `"Bla"` of the tests against the binding of the
tests. -/
theorem unknown_variant_rejected_witness :
    testBinding.subTypes.lookup (String.mk (Trim "Bla".toList ['"', ' '])) = none
    ∧ newObjectPtr testBinding (jsonString "Bla".toList) emptyWorld =
        (.error (Errorf "typeMapping decoder: type '%s' not found"
          [String.mk (Trim "Bla".toList ['"', ' '])]), emptyWorld) :=
  ⟨by decide, (unknown_variant_rejected testBinding "Bla".toList emptyWorld (by decide)).1⟩

/-! ## C4: registered variants -/

/-- C4, as stated, fails: the discriminator value ` A` (with a leading space)
is registered for `ImplA`, and `newObjectPtr` rejects the JSON string `" A"`
because it looks up the trimmed name `A`. -/
theorem registered_variant_counterexample :
    newTypeMapping testEnv Intf spacedTypeMap = .ok spacedBinding
    ∧ spacedTypeMap.SubTypes.lookup " A" = some "jsoniter.ImplA"
    ∧ testEnv.TypeByName "jsoniter.ImplA" = some ImplA
    ∧ (newObjectPtr spacedBinding (jsonString " A".toList) emptyWorld).1
        = .error (Errorf "typeMapping decoder: type '%s' not found" ["A"]) := by
  decide

/-- C4 (amended): for every successful registration and every discriminator
value `v` that is a key of the configured `SubTypes` map, whose type name
resolved, and that neither begins nor ends with a space or a quote (trimming
leaves it as it is), `newObjectPtr` on the raw value of the JSON string `"v"`
returns, without error, a new zero instance of exactly the type registered
under `v`. -/
theorem registered_variant_resolves (env : TypeEnv) (intfType : GoType)
    (typeMap : TypeMapping) (tm : typeMapping) (v name : String) (T : GoType) (w : World)
    (hnodup : (typeMap.SubTypes.map Prod.fst).Nodup)
    (hreg : newTypeMapping env intfType typeMap = .ok tm)
    (hv : typeMap.SubTypes.lookup v = some name)
    (hT : env.TypeByName name = some T)
    (hclean : Trim v.toList ['"', ' '] = v.toList) :
    newObjectPtr tm (jsonString v.toList) w =
      (.ok (.obj T w.next),
        { w with
          next := w.next + 1
          objs := Function.update w.objs w.next (some (Instance.zero T))
          trace := w.trace ++ [.UnsafeNew T w.next] }) := by
  have hlk : tm.subTypes.lookup v = some (some T) := by
    unfold newTypeMapping at hreg
    split at hreg
    · cases hreg
    · split at hreg
      · cases hreg
      · split at hreg
        · cases hreg
        · rename_i subTypes hloop
          simp only [Except.ok.injEq] at hreg
          subst hreg
          have := newTypeMapping_loop_lookup env intfType _ _ _ hnodup hloop v
          simpa [hv, hT] using this
  apply newObjectPtr_of_lookup_some
  rw [Trim_jsonString, hclean]
  exact hlk

/-- C4 witness: the value `ImplA` of the configuration of the tests. -/
theorem registered_variant_resolves_witness :
    (testTypeMap.SubTypes.map Prod.fst).Nodup
    ∧ newTypeMapping testEnv Intf testTypeMap = .ok testBinding
    ∧ testTypeMap.SubTypes.lookup "ImplA" = some "jsoniter.ImplA"
    ∧ testEnv.TypeByName "jsoniter.ImplA" = some ImplA
    ∧ Trim "ImplA".toList ['"', ' '] = "ImplA".toList
    ∧ newObjectPtr testBinding (jsonString "ImplA".toList) emptyWorld =
      (.ok (.obj ImplA emptyWorld.next),
        { emptyWorld with
          next := emptyWorld.next + 1
          objs := Function.update emptyWorld.objs emptyWorld.next (some (Instance.zero ImplA))
          trace := emptyWorld.trace ++ [.UnsafeNew ImplA emptyWorld.next] }) :=
  ⟨by decide, by decide, by decide, by decide, by decide,
    registered_variant_resolves testEnv Intf testTypeMap testBinding "ImplA" "jsoniter.ImplA"
      ImplA emptyWorld (by decide) (by decide) (by decide) (by decide) (by decide)⟩

/-! ## C7: the binding invariant -/

theorem newTypeMapping_loop_unresolved (env : TypeEnv) (intfType : GoType) :
    ∀ (l : List (String × String)) (acc : List (String × Option GoType)),
      (∀ p ∈ l, env.TypeByName p.2 = none) →
      newTypeMapping_loop env intfType l acc = .ok acc := by
  intro l
  induction l with
  | nil => intro acc _; rfl
  | cons p l ih =>
    obtain ⟨typeName, subtyp⟩ := p
    intro acc h
    have h1 : env.TypeByName subtyp = none := h (typeName, subtyp) (List.mem_cons_self _ _)
    unfold newTypeMapping_loop
    simp only [h1]
    exact ih acc (fun p hp => h p (List.mem_cons_of_mem _ hp))

theorem newTypeMapping_ok_iff (env : TypeEnv) (intfType : GoType) (typeMap : TypeMapping) :
    (∃ tm, newTypeMapping env intfType typeMap = .ok tm) ↔
      (typeMap.SubTypes ≠ [] ∧ isUnsafeIFaceType intfType = true ∧
        ∀ p ∈ typeMap.SubTypes, ∀ T, env.TypeByName p.2 = some T →
          env.Implements (.ptr T) intfType = true) := by
  rw [← newTypeMapping_loop_ok_iff env intfType typeMap.SubTypes []]
  unfold newTypeMapping
  by_cases h0 : typeMap.SubTypes = []
  · simp [h0]
  · have hlen : ¬ typeMap.SubTypes.length = 0 := by simpa using h0
    by_cases hi : isUnsafeIFaceType intfType = true
    · simp only [hlen, ↓reduceIte, hi, Bool.not_true, Bool.false_eq_true, ne_eq, h0,
        not_false_eq_true, true_and]
      cases hl : newTypeMapping_loop env intfType typeMap.SubTypes [] with
      | error e => simp
      | ok r => simp
    · simp [hlen, hi]

theorem newTypeMapping_ok_subTypes (env : TypeEnv) (intfType : GoType)
    (typeMap : TypeMapping) (tm : typeMapping)
    (hreg : newTypeMapping env intfType typeMap = .ok tm) :
    tm.interfaceType = intfType ∧ tm.typeField = typeMap.TypeField ∧
      newTypeMapping_loop env intfType typeMap.SubTypes [] = .ok tm.subTypes := by
  unfold newTypeMapping at hreg
  split at hreg
  · cases hreg
  · split at hreg
    · cases hreg
    · split at hreg
      · cases hreg
      · rename_i subTypes hloop
        simp only [Except.ok.injEq] at hreg
        subst hreg
        exact ⟨rfl, rfl, hloop⟩

/-- C7: `newTypeMapping` succeeds exactly when the variant set is not empty,
the interface is an interface type and every configured name that resolves
names a type whose pointer type implements the interface, so names that do
not resolve never make it fail; when none resolves the variant map is empty;
whenever it succeeds, the binding keeps the interface and the discriminator
field, its variant map holds exactly the configured discriminator values whose
name resolves, each mapped to the resolved type, and the pointer type of every
type in it implements the interface. -/
theorem binding_invariant (env : TypeEnv) (intfType : GoType) (typeMap : TypeMapping)
    (hnodup : (typeMap.SubTypes.map Prod.fst).Nodup) :
    ((∃ tm, newTypeMapping env intfType typeMap = .ok tm) ↔
      (typeMap.SubTypes ≠ [] ∧ isUnsafeIFaceType intfType = true ∧
        ∀ p ∈ typeMap.SubTypes, ∀ T, env.TypeByName p.2 = some T →
          env.Implements (.ptr T) intfType = true))
    ∧ (typeMap.SubTypes ≠ [] → isUnsafeIFaceType intfType = true →
        (∀ p ∈ typeMap.SubTypes, env.TypeByName p.2 = none) →
        newTypeMapping env intfType typeMap = .ok ⟨intfType, typeMap.TypeField, []⟩)
    ∧ (∀ tm, newTypeMapping env intfType typeMap = .ok tm →
        tm.interfaceType = intfType ∧ tm.typeField = typeMap.TypeField
        ∧ (∀ k, tm.subTypes.lookup k =
            ((typeMap.SubTypes.lookup k).bind env.TypeByName).map some)
        ∧ (∀ k v, tm.subTypes.lookup k = some v →
            ∃ T, v = some T ∧ env.Implements (.ptr T) intfType = true)) := by
  refine ⟨newTypeMapping_ok_iff env intfType typeMap, ?_, ?_⟩
  · intro h0 hi hnone
    have hlen : ¬ typeMap.SubTypes.length = 0 := by simpa using h0
    simp only [newTypeMapping, hlen, ↓reduceIte, hi, Bool.not_true, Bool.false_eq_true,
      newTypeMapping_loop_unresolved env intfType _ [] hnone]
  · intro tm hreg
    obtain ⟨h1, h2, hloop⟩ := newTypeMapping_ok_subTypes env intfType typeMap tm hreg
    refine ⟨h1, h2, ?_, ?_⟩
    · intro k
      rw [newTypeMapping_loop_lookup env intfType _ _ _ hnodup hloop k]
      cases (typeMap.SubTypes.lookup k).bind env.TypeByName <;> simp
    · exact newTypeMapping_loop_implements env intfType _ [] _
        (fun k v hk => by simp at hk) hloop

/-- C7 witness: the configuration of the tests, whose keys are distinct. -/
theorem binding_invariant_witness :
    (testTypeMap.SubTypes.map Prod.fst).Nodup
    ∧ (∀ tm, newTypeMapping testEnv Intf testTypeMap = .ok tm →
        tm.interfaceType = Intf ∧ tm.typeField = testTypeMap.TypeField
        ∧ (∀ k, tm.subTypes.lookup k =
            ((testTypeMap.SubTypes.lookup k).bind testEnv.TypeByName).map some)
        ∧ (∀ k v, tm.subTypes.lookup k = some v →
            ∃ T, v = some T ∧ testEnv.Implements (.ptr T) Intf = true)) :=
  ⟨by decide, (binding_invariant testEnv Intf testTypeMap (by decide)).2.2⟩

/-! ## C6: registration failures -/

theorem newTypeMapping_error_of_not_ok (env : TypeEnv) (intfType : GoType)
    (typeMap : TypeMapping)
    (h : ¬ (typeMap.SubTypes ≠ [] ∧ isUnsafeIFaceType intfType = true ∧
        ∀ p ∈ typeMap.SubTypes, ∀ T, env.TypeByName p.2 = some T →
          env.Implements (.ptr T) intfType = true)) :
    ∃ err, newTypeMapping env intfType typeMap = .error err := by
  cases hr : newTypeMapping env intfType typeMap with
  | error e => exact ⟨e, rfl⟩
  | ok tm => exact absurd ((newTypeMapping_ok_iff env intfType typeMap).1 ⟨tm, hr⟩) h

theorem isUnsafeIFaceType_kind (t : GoType) (h : isUnsafeIFaceType t = true) :
    t.Kind = .Interface := by
  cases t <;> simp_all [isUnsafeIFaceType, GoType.Kind]

/-- One failing configuration stops the loop of `NewTypeMappingExt` with an
error, whatever precedes and follows it. -/
theorem NewTypeMappingExt_loop_fails (env : TypeEnv) :
    ∀ (cfgs : List TypeMapping) (types : List (GoType × typeMapping)),
      (∃ cfg ∈ cfgs,
        cfg.SubTypes = []
        ∨ cfg.Interface = none
        ∨ (∃ itf, cfg.Interface = some itf ∧ itf.Kind ≠ .Interface
            ∧ ¬ (itf.Kind = .Ptr ∧ itf.Elem.Kind = .Interface))
        ∨ (∃ itf intfType p T, cfg.Interface = some itf
            ∧ configInterface itf = some intfType ∧ p ∈ cfg.SubTypes
            ∧ env.TypeByName p.2 = some T ∧ env.Implements (.ptr T) intfType = false)) →
      ∃ err, NewTypeMappingExt_loop env cfgs types = .error err := by
  intro cfgs
  induction cfgs with
  | nil => intro types h; obtain ⟨cfg, hmem, _⟩ := h; cases hmem
  | cons c rest ih =>
    intro types h
    unfold NewTypeMappingExt_loop
    cases hI : c.Interface with
    | none => exact ⟨_, rfl⟩
    | some itf =>
      simp only
      cases hci : configInterface itf with
      | none => exact ⟨_, rfl⟩
      | some intfType =>
        simp only
        cases hr : newTypeMapping env intfType c with
        | error e => exact ⟨e, rfl⟩
        | ok tm =>
          simp only
          have hok := (newTypeMapping_ok_iff env intfType c).1 ⟨tm, hr⟩
          obtain ⟨cfg, hmem, hbad⟩ := h
          rcases List.mem_cons.1 hmem with hc | hc
          · subst hc
            exfalso
            rcases hbad with h0 | h0 | ⟨itf1, h1, h2, h3⟩ | ⟨itf1, intf1, p, T, h1, h2, h3, h4, h5⟩
            · exact hok.1 h0
            · rw [hI] at h0; cases h0
            · rw [hI] at h1
              cases h1
              have hk := isUnsafeIFaceType_kind _ hok.2.1
              unfold configInterface at hci
              cases hkind : itf.Kind with
              | Ptr =>
                rw [hkind] at hci
                simp only [Option.some.injEq] at hci
                exact h3 ⟨hkind, by rw [hci]; exact hk⟩
              | Interface => exact h2 hkind
              | Struct => rw [hkind] at hci; cases hci
              | Other => rw [hkind] at hci; cases hci
            · rw [hI] at h1
              cases h1
              rw [hci] at h2
              cases h2
              have := hok.2.2 p h3 T h4
              rw [h5] at this
              cases this
          · exact ih _ ⟨cfg, hc, hbad⟩

/-- C6: `NewTypeMappingExt` returns an error, and so no extension, when no
configuration is supplied or when any of the supplied configurations has an
empty `SubTypes` map, a nil `Interface`, an `Interface` that is neither of
interface kind nor a pointer to a type of interface kind, or a name that
resolves to a type whose pointer type does not implement the interface; the
other configurations of the call do not matter. -/
theorem registration_fails (env : TypeEnv) (cfgs : List TypeMapping)
    (hbad : cfgs = [] ∨ ∃ cfg ∈ cfgs,
        cfg.SubTypes = []
        ∨ cfg.Interface = none
        ∨ (∃ itf, cfg.Interface = some itf ∧ itf.Kind ≠ .Interface
            ∧ ¬ (itf.Kind = .Ptr ∧ itf.Elem.Kind = .Interface))
        ∨ (∃ itf intfType p T, cfg.Interface = some itf
            ∧ configInterface itf = some intfType ∧ p ∈ cfg.SubTypes
            ∧ env.TypeByName p.2 = some T ∧ env.Implements (.ptr T) intfType = false)) :
    ∃ err, NewTypeMappingExt env cfgs = .error err := by
  unfold NewTypeMappingExt
  rcases hbad with h0 | h
  · subst h0; exact ⟨_, rfl⟩
  · obtain ⟨err, herr⟩ := NewTypeMappingExt_loop_fails env cfgs [] h
    split
    · exact ⟨_, rfl⟩
    · rw [herr]; exact ⟨err, rfl⟩

/-- C6 witness: the configuration of the tests followed by one that names
`Cplx`, whose pointer type does not implement `Intf`. -/
theorem registration_fails_witness :
    (∃ cfg ∈ [testTypeMap, cplxTypeMap],
        ∃ itf intfType p T, cfg.Interface = some itf
          ∧ configInterface itf = some intfType ∧ p ∈ cfg.SubTypes
          ∧ testEnv.TypeByName p.2 = some T ∧ testEnv.Implements (.ptr T) intfType = false)
    ∧ ∃ err, NewTypeMappingExt testEnv [testTypeMap, cplxTypeMap] = .error err :=
  have hbad : ∃ cfg ∈ [testTypeMap, cplxTypeMap],
      ∃ itf intfType p T, cfg.Interface = some itf
        ∧ configInterface itf = some intfType ∧ p ∈ cfg.SubTypes
        ∧ testEnv.TypeByName p.2 = some T ∧ testEnv.Implements (.ptr T) intfType = false :=
    ⟨cplxTypeMap, by simp, .ptr Intf, Intf, ("Cplx", "jsoniter.Cplx"), .struct "jsoniter.Cplx",
      rfl, rfl, by simp [cplxTypeMap], by decide, by decide⟩
  ⟨hbad, registration_fails testEnv [testTypeMap, cplxTypeMap]
    (Or.inr (hbad.imp fun _ h => ⟨h.1, Or.inr (Or.inr (Or.inr h.2))⟩))⟩

/-! ## C1: assignment before decode -/

theorem setContainer_struct (typMap : typeMapping) (decCtx : mappingCtx) (v : IfaceVal)
    (w : World) (fields : List (String × Addr)) (name : String) (a : Addr)
    (hc : decCtx.container = .Struct fields) (hf : decCtx.field = some name)
    (ha : fields.lookup name = some a) :
    setContainer typMap decCtx v w = .ok (.ok ((w.setCell a v).log (.FieldSet name v))) := by
  simp only [setContainer, hc, hf, ha]

theorem setContainer_slice (typMap : typeMapping) (decCtx : mappingCtx) (v : IfaceVal)
    (w : World) (elems : List Addr) (a : Addr)
    (hc : decCtx.container = .Slice elems) (hi : 0 ≤ decCtx.sliceIndex)
    (ha : elems.get? decCtx.sliceIndex.toNat = some a) :
    setContainer typMap decCtx v w =
      .ok (.ok ((w.setCell a v).log (.IndexSet decCtx.sliceIndex v))) := by
  simp only [setContainer, hc, hi, ↓reduceIte, ha]

theorem setContainer_map (typMap : typeMapping) (decCtx : mappingCtx) (v : IfaceVal)
    (w : World) (m : Addr) (hc : decCtx.container = .Map (some m)) :
    setContainer typMap decCtx v w =
      .ok (.ok ({ w with
        maps := Function.update w.maps m (mapSet (w.maps m) decCtx.mapKey v) }.log
          (.SetMapIndex decCtx.mapKey v))) := by
  simp only [setContainer, hc]

/-- C1: when the slot is nil, the next token is not null, the scan leaves no
error and the trimmed discriminator is registered for the type `T`, `DynDecode`
allocates one instance of `T` and, for a struct with a field, a slice with an
index and a map with a key, returns what the host decode `ReadVal` returns when
it is given that instance, the cursor reset to the start of the object, and a
memory in which the container location (the field, the element, the map entry)
already holds that same instance: the log of the calls ends with the
allocation, the assignment, and then the host decode. -/
theorem assignment_before_decode (h : Host) (typMap : typeMapping) (decCtx : mappingCtx)
    (ptr : Addr) (iter : Iterator) (w : World) (T : GoType)
    (hnull : (h.ReadNil iter).1 = false) (hslot : IsNil (w.cells ptr) = true)
    (hscan : (h.locateObjectField (h.ReadNil iter).2 typMap.typeField).2.Error = none)
    (hres : typMap.subTypes.lookup (String.mk
      (Trim (h.locateObjectField (h.ReadNil iter).2 typMap.typeField).1 ['"', ' ']))
        = some (some T)) :
    (∀ (fields : List (String × Addr)) (name : String) (a : Addr),
      decCtx.container = .Struct fields → decCtx.field = some name →
      fields.lookup name = some a →
      DynDecode h typMap decCtx ptr iter w =
        .ok (h.ReadVal (.obj T w.next)
          { (h.locateObjectField (h.ReadNil iter).2 typMap.typeField).2 with
            head := (h.ReadNil iter).2.head }
          { cells := Function.update w.cells a (.obj T w.next)
            maps := w.maps
            objs := Function.update w.objs w.next (some (Instance.zero T))
            next := w.next + 1
            trace := w.trace ++ [.ReadNil,
              .locateObjectField typMap.typeField (h.ReadNil iter).2.head,
              .UnsafeNew T w.next, .FieldSet name (.obj T w.next),
              .ReadVal (.obj T w.next) (h.ReadNil iter).2.head] }))
    ∧ (∀ (elems : List Addr) (a : Addr),
      decCtx.container = .Slice elems → 0 ≤ decCtx.sliceIndex →
      elems.get? decCtx.sliceIndex.toNat = some a →
      DynDecode h typMap decCtx ptr iter w =
        .ok (h.ReadVal (.obj T w.next)
          { (h.locateObjectField (h.ReadNil iter).2 typMap.typeField).2 with
            head := (h.ReadNil iter).2.head }
          { cells := Function.update w.cells a (.obj T w.next)
            maps := w.maps
            objs := Function.update w.objs w.next (some (Instance.zero T))
            next := w.next + 1
            trace := w.trace ++ [.ReadNil,
              .locateObjectField typMap.typeField (h.ReadNil iter).2.head,
              .UnsafeNew T w.next, .IndexSet decCtx.sliceIndex (.obj T w.next),
              .ReadVal (.obj T w.next) (h.ReadNil iter).2.head] }))
    ∧ (∀ (m : Addr),
      decCtx.container = .Map (some m) →
      DynDecode h typMap decCtx ptr iter w =
        .ok (h.ReadVal (.obj T w.next)
          { (h.locateObjectField (h.ReadNil iter).2 typMap.typeField).2 with
            head := (h.ReadNil iter).2.head }
          { cells := w.cells
            maps := Function.update w.maps m
              (mapSet (w.maps m) decCtx.mapKey (.obj T w.next))
            objs := Function.update w.objs w.next (some (Instance.zero T))
            next := w.next + 1
            trace := w.trace ++ [.ReadNil,
              .locateObjectField typMap.typeField (h.ReadNil iter).2.head,
              .UnsafeNew T w.next, .SetMapIndex decCtx.mapKey (.obj T w.next),
              .ReadVal (.obj T w.next) (h.ReadNil iter).2.head] })) := by
  have hD := DynDecode_resolution h typMap decCtx ptr iter w hnull hslot hscan
  rw [newObjectPtr_of_lookup_some typMap _ _ T hres] at hD
  refine ⟨?_, ?_, ?_⟩
  · intro fields name a hc hf ha
    rw [hD]
    simp only [setContainer_struct typMap decCtx _ _ fields name a hc hf ha]
    simp [World.log, World.setCell]
  · intro elems a hc hi ha
    rw [hD]
    simp only [setContainer_slice typMap decCtx _ _ elems a hc hi ha]
    simp [World.log, World.setCell]
  · intro m hc
    rw [hD]
    simp only [setContainer_map typMap decCtx _ _ m hc]
    simp [World.log]

/-- C1 witness: the object `{"type":"ImplA","a":"abcd"}` decoded into the nil
field `Intf` of a `Cplx`. -/
theorem assignment_before_decode_witness :
    (specHost.ReadNil (cursor "\x7b\"type\":\"ImplA\",\"a\":\"abcd\"\x7d")).1 = false
    ∧ IsNil (emptyWorld.cells 0) = true
    ∧ (specHost.locateObjectField
        (specHost.ReadNil (cursor "\x7b\"type\":\"ImplA\",\"a\":\"abcd\"\x7d")).2
        testBinding.typeField).2.Error = none
    ∧ testBinding.subTypes.lookup (String.mk
        (Trim (specHost.locateObjectField
          (specHost.ReadNil (cursor "\x7b\"type\":\"ImplA\",\"a\":\"abcd\"\x7d")).2
          testBinding.typeField).1 ['"', ' '])) = some (some ImplA)
    ∧ DynDecode specHost testBinding cplxCtx 0
        (cursor "\x7b\"type\":\"ImplA\",\"a\":\"abcd\"\x7d") emptyWorld =
        .ok (specHost.ReadVal (.obj ImplA 0)
          { (specHost.locateObjectField
              (specHost.ReadNil (cursor "\x7b\"type\":\"ImplA\",\"a\":\"abcd\"\x7d")).2
              testBinding.typeField).2 with
            head := (specHost.ReadNil (cursor "\x7b\"type\":\"ImplA\",\"a\":\"abcd\"\x7d")).2.head }
          { cells := Function.update emptyWorld.cells 0 (.obj ImplA 0)
            maps := emptyWorld.maps
            objs := Function.update emptyWorld.objs 0 (some (Instance.zero ImplA))
            next := 1
            trace := [.ReadNil, .locateObjectField "type" 0, .UnsafeNew ImplA 0,
              .FieldSet "Intf" (.obj ImplA 0), .ReadVal (.obj ImplA 0) 0] }) :=
  ⟨by decide, by decide, by decide, by decide,
    (assignment_before_decode specHost testBinding cplxCtx 0
      (cursor "\x7b\"type\":\"ImplA\",\"a\":\"abcd\"\x7d") emptyWorld ImplA
      (by decide) (by decide) (by decide) (by decide)).1 [("Intf", 0)] "Intf" 0 rfl rfl rfl⟩

/-! ## C10: the null check -/

/-- C10: when `ReadNil` reports a null token, `DynDecode` returns at once,
whatever the container and whatever the slot held: the cursor is the one
`ReadNil` left (no error is set on it), the memory differs only in the slot,
which holds the nil interface, and the log of the calls has `ReadNil` and the
`UnsafeSet` of the slot and nothing else: no scan, no allocation, no assignment
to the container, no host decode. The `ReadNil` of the host codec for concrete
runs leaves the error state of the cursor as it was. -/
theorem null_is_terminal (h : Host) (typMap : typeMapping) (decCtx : mappingCtx)
    (ptr : Addr) (iter : Iterator) (w : World)
    (hnull : (h.ReadNil iter).1 = true) :
    DynDecode h typMap decCtx ptr iter w =
      .ok ((h.ReadNil iter).2,
        { cells := Function.update w.cells ptr .nil
          maps := w.maps
          objs := w.objs
          next := w.next
          trace := w.trace ++ [.ReadNil, .UnsafeSet ptr .nil] })
    ∧ (Function.update w.cells ptr IfaceVal.nil) ptr = .nil
    ∧ (ReadNil iter).2.Error = iter.Error := by
  refine ⟨?_, by simp, ?_⟩
  · simp [DynDecode, hnull, World.log, World.setCell]
  · unfold ReadNil
    dsimp only
    split <;> rfl

/-- C10 witness: the token `null` decoded into a slot that holds an instance,
in a struct field. -/
theorem null_is_terminal_witness :
    (specHost.ReadNil (cursor "null")).1 = true
    ∧ DynDecode specHost testBinding cplxCtx 0 (cursor "null") populatedWorld =
      .ok ((specHost.ReadNil (cursor "null")).2,
        { cells := Function.update populatedWorld.cells 0 .nil
          maps := populatedWorld.maps
          objs := populatedWorld.objs
          next := populatedWorld.next
          trace := populatedWorld.trace ++ [.ReadNil, .UnsafeSet 0 .nil] }) :=
  ⟨by decide, (null_is_terminal specHost testBinding cplxCtx 0 (cursor "null")
    populatedWorld (by decide)).1⟩

/-! ## C5: discriminators that are not strings -/

/-- C5, as stated, fails: with a variant registered under the text `0`, the
object `{"type":0}`, whose discriminator is the number 0 (the scanner returns
its raw byte `0`), is resolved: `DynDecode` allocates an instance of `ImplA`
and assigns it to the field of the container before the host decode. -/
theorem nonstring_discriminator_counterexample :
    newTypeMapping testEnv Intf numTypeMap = .ok numBinding
    ∧ (specHost.locateObjectField (specHost.ReadNil (cursor "\x7b\"type\":0\x7d")).2 "type").1
        = ['0']
    ∧ (DynDecode specHost numBinding cplxCtx 0 (cursor "\x7b\"type\":0\x7d") emptyWorld).toOption.map
        (fun r => (r.2.cells 0, r.2.objs 0, r.2.next, r.2.trace)) =
      some (.obj ImplA 0, some (Instance.zero ImplA), 1,
        [.ReadNil, .locateObjectField "type" 0, .UnsafeNew ImplA 0,
          .FieldSet "Intf" (.obj ImplA 0), .ReadVal (.obj ImplA 0) 0]) := by
  decide

/-- C5 (amended): for every binding and every object whose discriminator field
is present with a value that is not a JSON string (its raw bytes, as the
scanner returns them, do not start with a quote) and whose raw bytes, trimmed
of the quotes and spaces at both ends, are not a key of the variant map,
`DynDecode` ends with the unknown-variant error in the cursor, and the memory
is as before but for the log of `ReadNil` and of the scan: nothing is
allocated and nothing is written to the container. -/
theorem nonstring_discriminator_rejected (h : Host) (typMap : typeMapping)
    (decCtx : mappingCtx) (ptr : Addr) (iter : Iterator) (w : World)
    (hnull : (h.ReadNil iter).1 = false) (hslot : IsNil (w.cells ptr) = true)
    (hscan : (h.locateObjectField (h.ReadNil iter).2 typMap.typeField).2.Error = none)
    (hvalue : ∃ c, (skipSpace (h.locateObjectField (h.ReadNil iter).2
      typMap.typeField).1).head? = some c ∧ c ≠ '"')
    (hkey : typMap.subTypes.lookup (String.mk
      (Trim (h.locateObjectField (h.ReadNil iter).2 typMap.typeField).1 ['"', ' '])) = none) :
    DynDecode h typMap decCtx ptr iter w =
      .ok ({ (h.locateObjectField (h.ReadNil iter).2 typMap.typeField).2 with
          head := (h.ReadNil iter).2.head
          Error := some (Errorf "typeMapping decoder: type '%s' not found"
            [String.mk (Trim (h.locateObjectField (h.ReadNil iter).2 typMap.typeField).1
              ['"', ' '])]) },
        { cells := w.cells
          maps := w.maps
          objs := w.objs
          next := w.next
          trace := w.trace ++ [.ReadNil,
            .locateObjectField typMap.typeField (h.ReadNil iter).2.head] }) := by
  obtain ⟨c, _, _⟩ := hvalue
  rw [DynDecode_of_lookup_none h typMap decCtx ptr iter w hnull hslot hscan hkey]
  simp [World.log]

/-- C5 witness: the object `{"type":0,"a":"abcd"}` of the tests against the
binding of the tests. -/
theorem nonstring_discriminator_rejected_witness :
    (specHost.ReadNil (cursor "\x7b\"type\":0,\"a\":\"abcd\"\x7d")).1 = false
    ∧ IsNil (emptyWorld.cells 0) = true
    ∧ (specHost.locateObjectField (specHost.ReadNil (cursor "\x7b\"type\":0,\"a\":\"abcd\"\x7d")).2
        testBinding.typeField).2.Error = none
    ∧ (∃ c, (skipSpace (specHost.locateObjectField
        (specHost.ReadNil (cursor "\x7b\"type\":0,\"a\":\"abcd\"\x7d")).2
        testBinding.typeField).1).head? = some c ∧ c ≠ '"')
    ∧ DynDecode specHost testBinding cplxCtx 0 (cursor "\x7b\"type\":0,\"a\":\"abcd\"\x7d")
        emptyWorld =
      .ok ({ (specHost.locateObjectField
            (specHost.ReadNil (cursor "\x7b\"type\":0,\"a\":\"abcd\"\x7d")).2
            testBinding.typeField).2 with
          head := (specHost.ReadNil (cursor "\x7b\"type\":0,\"a\":\"abcd\"\x7d")).2.head
          Error := some (Errorf "typeMapping decoder: type '%s' not found"
            [String.mk (Trim (specHost.locateObjectField
              (specHost.ReadNil (cursor "\x7b\"type\":0,\"a\":\"abcd\"\x7d")).2
              testBinding.typeField).1 ['"', ' '])]) },
        { cells := emptyWorld.cells
          maps := emptyWorld.maps
          objs := emptyWorld.objs
          next := emptyWorld.next
          trace := emptyWorld.trace ++ [.ReadNil,
            .locateObjectField testBinding.typeField
              (specHost.ReadNil (cursor "\x7b\"type\":0,\"a\":\"abcd\"\x7d")).2.head] }) :=
  ⟨by decide, by decide, by decide, ⟨'0', by decide, by decide⟩,
    nonstring_discriminator_rejected specHost testBinding cplxCtx 0
      (cursor "\x7b\"type\":0,\"a\":\"abcd\"\x7d") emptyWorld (by decide) (by decide) (by decide)
      ⟨'0', by decide, by decide⟩ (by decide)⟩

/-! ## C8: errors of the map-key resolver -/

/-- A scan error on the sub-cursor of the key makes `DynDecodeKey` panic: the
message is built from the error of the outer cursor, which is nil there. -/
theorem DynDecodeKey_scan_error (h : Host) (typMap : typeMapping)
    (iter : Iterator) (w : World) (e : GoError)
    (hnull : (h.ReadNil iter).1 = false)
    (hkeystr : (h.ReadString (h.ReadNil iter).2).2.Error = none)
    (hscan : (h.locateObjectField (BorrowIterator (h.ReadString (h.ReadNil iter).2).1)
      typMap.typeField).2.Error = some e) :
    DynDecodeKey h typMap iter w =
      .error "invalid memory address or nil pointer dereference" := by
  simp only [DynDecodeKey, hnull, hkeystr, hscan, Bool.false_eq_true, ↓reduceIte]

/-- After a successful resolution `DynDecodeKey` returns the new instance with
a nil error, whatever the host decode of the key body does to the sub-cursor. -/
theorem DynDecodeKey_decode_unchecked (h : Host) (typMap : typeMapping)
    (iter : Iterator) (w : World) (T : GoType)
    (hnull : (h.ReadNil iter).1 = false)
    (hkeystr : (h.ReadString (h.ReadNil iter).2).2.Error = none)
    (hscan : (h.locateObjectField (BorrowIterator (h.ReadString (h.ReadNil iter).2).1)
      typMap.typeField).2.Error = none)
    (hres : typMap.subTypes.lookup (String.mk
      (Trim (h.locateObjectField (BorrowIterator (h.ReadString (h.ReadNil iter).2).1)
        typMap.typeField).1 ['"', ' '])) = some (some T)) :
    ∃ w1, DynDecodeKey h typMap iter w =
      .ok ((.obj T w.next, none), (h.ReadString (h.ReadNil iter).2).2, w1) := by
  simp only [DynDecodeKey, hnull, hkeystr, hscan, Bool.false_eq_true, ↓reduceIte,
    newObjectPtr_of_lookup_some typMap _ _ T hres]
  exact ⟨_, rfl⟩

/-- C8 fails on the code. The key `{"type":` is truncated: the scan of the
sub-cursor sets an error, and `DynDecodeKey` panics instead of returning an
error. The key `{"type":"ImplA","a":0}` resolves to `ImplA` and its body does
not decode (the host decode sets an error on the sub-cursor), and
`DynDecodeKey` returns the instance with a nil error. -/
theorem key_resolver_failures :
    DynDecodeKey specHost testBinding (cursor "\"\x7b\\\"type\\\":\"") emptyWorld
      = .error "invalid memory address or nil pointer dereference"
    ∧ (specHost.ReadVal (.obj ImplA 0) (BorrowIterator "\x7b\"type\":\"ImplA\",\"a\":0\x7d".toList)
        emptyWorld).1.Error ≠ none
    ∧ (DynDecodeKey specHost testBinding
        (cursor "\"\x7b\\\"type\\\":\\\"ImplA\\\",\\\"a\\\":0\x7d\"") emptyWorld).toOption.map
          (fun r => r.1) = some (.obj ImplA 0, none) := by
  refine ⟨?_, by decide, ?_⟩
  · exact DynDecodeKey_scan_error specHost testBinding _ emptyWorld
      (Errorf "%s: unexpected end of input or character" ["ReadObjectCB"])
      (by decide) (by decide) (by decide)
  · obtain ⟨w1, hw⟩ := DynDecodeKey_decode_unchecked specHost testBinding
      (cursor "\"\x7b\\\"type\\\":\\\"ImplA\\\",\\\"a\\\":0\x7d\"") emptyWorld ImplA
      (by decide) (by decide) (by decide) (by decide)
    rw [hw]
    rfl

/-! ## C2: the round trip -/

/-- `DynDecode` once the variant is resolved and the container assigned. -/
theorem DynDecode_of_resolved (h : Host) (typMap : typeMapping) (decCtx : mappingCtx)
    (ptr : Addr) (iter : Iterator) (w w2 : World) (T : GoType)
    (hnull : (h.ReadNil iter).1 = false) (hslot : IsNil (w.cells ptr) = true)
    (hscan : (h.locateObjectField (h.ReadNil iter).2 typMap.typeField).2.Error = none)
    (hres : typMap.subTypes.lookup (String.mk
      (Trim (h.locateObjectField (h.ReadNil iter).2 typMap.typeField).1 ['"', ' ']))
        = some (some T))
    (hset : setContainer typMap decCtx (.obj T w.next)
      { cells := w.cells
        maps := w.maps
        objs := Function.update w.objs w.next (some (Instance.zero T))
        next := w.next + 1
        trace := w.trace ++ [.ReadNil,
          .locateObjectField typMap.typeField (h.ReadNil iter).2.head,
          .UnsafeNew T w.next] } = .ok (.ok w2)) :
    DynDecode h typMap decCtx ptr iter w =
      .ok (h.ReadVal (.obj T w.next)
        { (h.locateObjectField (h.ReadNil iter).2 typMap.typeField).2 with
          head := (h.ReadNil iter).2.head }
        (w2.log (.ReadVal (.obj T w.next) (h.ReadNil iter).2.head))) := by
  have hD := DynDecode_resolution h typMap decCtx ptr iter w hnull hslot hscan
  rw [newObjectPtr_of_lookup_some typMap _ _ T hres] at hD
  have hw : ({ cells := w.cells
               maps := w.maps
               objs := Function.update w.objs w.next (some (Instance.zero T))
               next := w.next + 1
               trace := w.trace ++ [.ReadNil,
                 .locateObjectField typMap.typeField (h.ReadNil iter).2.head,
                 .UnsafeNew T w.next] } : World)
      = { (w.log .ReadNil).log (.locateObjectField typMap.typeField (h.ReadNil iter).2.head) with
          next := ((w.log .ReadNil).log
            (.locateObjectField typMap.typeField (h.ReadNil iter).2.head)).next + 1
          objs := Function.update ((w.log .ReadNil).log
            (.locateObjectField typMap.typeField (h.ReadNil iter).2.head)).objs
              ((w.log .ReadNil).log
                (.locateObjectField typMap.typeField (h.ReadNil iter).2.head)).next
              (some (Instance.zero T))
          trace := ((w.log .ReadNil).log
            (.locateObjectField typMap.typeField (h.ReadNil iter).2.head)).trace
              ++ [.UnsafeNew T ((w.log .ReadNil).log
                (.locateObjectField typMap.typeField (h.ReadNil iter).2.head)).next] } := by
    simp [World.log]
  rw [hw] at hset
  rw [hD]
  simp only [World.log] at hset ⊢
  simp only [hset]

/-- C2, as stated, fails: `ImplA` is registered under the value ` A` (with a
leading space), the instance holds that value in its discriminator field, the
host decode undoes the encoding of the instance, and yet decoding the encoding
into the nil field of a struct ends with the unknown-variant error for `A` and
leaves the field nil. -/
theorem round_trip_counterexample :
    newTypeMapping testEnv Intf spacedTypeMap = .ok spacedBinding
    ∧ spacedBinding.subTypes.lookup " A" = some (some ImplA)
    ∧ spacedInstance.fields.lookup spacedBinding.typeField = some " A"
    ∧ (specHost.ReadVal (.obj ImplA 0) ⟨Marshal spacedInstance, 0, none⟩ emptyWorld).2.objs 0
        = some spacedInstance
    ∧ (DynDecode specHost spacedBinding cplxCtx 0 ⟨Marshal spacedInstance, 0, none⟩
        emptyWorld).toOption.map (fun r => (r.1.Error, r.2.cells 0, r.2.objs 0)) =
      some (some (Errorf "typeMapping decoder: type '%s' not found" ["A"]), .nil, none) := by
  decide

/-- C2 (amended): let `T` be registered in the binding under a value `v` that
neither begins nor ends with a space or a quote, and let the cursor stand at
the JSON encoding of an instance `x` of `T` whose discriminator field holds
`v`: it is not null, the scanner finds the raw value `"v"` in it, and the host
decode of it into a zero instance of `T` yields `x` without error and keeps
the references to that instance (the host decode undoes its encode). Then
decoding into a nil slot reached through a struct field, a slice element or a
map value succeeds and leaves in that location a new instance of `T` equal to
`x`. -/
theorem round_trip (h : Host) (typMap : typeMapping) (decCtx : mappingCtx) (ptr : Addr)
    (iter : Iterator) (w : World) (x : Instance) (T : GoType) (v : String)
    (hnull : h.ReadNil iter = (false, iter))
    (hslot : IsNil (w.cells ptr) = true)
    (hraw : (h.locateObjectField iter typMap.typeField).1 = jsonString v.toList)
    (hscan : (h.locateObjectField iter typMap.typeField).2.Error = none)
    (hreg : typMap.subTypes.lookup v = some (some T))
    (hclean : Trim v.toList ['"', ' '] = v.toList)
    (hdec : ∀ (a : Addr) (w1 : World), w1.objs a = some (Instance.zero T) →
      (h.ReadVal (.obj T a)
        { (h.locateObjectField iter typMap.typeField).2 with head := iter.head } w1).1.Error
          = none
      ∧ (h.ReadVal (.obj T a)
        { (h.locateObjectField iter typMap.typeField).2 with head := iter.head } w1).2.objs a
          = some x
      ∧ (∀ c, w1.cells c = .obj T a →
        (h.ReadVal (.obj T a)
          { (h.locateObjectField iter typMap.typeField).2 with head := iter.head } w1).2.cells c
            = .obj T a)
      ∧ (∀ m k, (w1.maps m).lookup k = some (.obj T a) →
        ((h.ReadVal (.obj T a)
          { (h.locateObjectField iter typMap.typeField).2 with head := iter.head } w1).2.maps
            m).lookup k = some (.obj T a))) :
    (∀ (fields : List (String × Addr)) (name : String) (a : Addr),
      decCtx.container = .Struct fields → decCtx.field = some name →
      fields.lookup name = some a →
      ∃ it1 w1, DynDecode h typMap decCtx ptr iter w = .ok (it1, w1) ∧ it1.Error = none
        ∧ w1.cells a = .obj T w.next ∧ w1.objs w.next = some x)
    ∧ (∀ (elems : List Addr) (a : Addr),
      decCtx.container = .Slice elems → 0 ≤ decCtx.sliceIndex →
      elems.get? decCtx.sliceIndex.toNat = some a →
      ∃ it1 w1, DynDecode h typMap decCtx ptr iter w = .ok (it1, w1) ∧ it1.Error = none
        ∧ w1.cells a = .obj T w.next ∧ w1.objs w.next = some x)
    ∧ (∀ (m : Addr),
      decCtx.container = .Map (some m) →
      ∃ it1 w1, DynDecode h typMap decCtx ptr iter w = .ok (it1, w1) ∧ it1.Error = none
        ∧ (w1.maps m).lookup decCtx.mapKey = some (.obj T w.next)
        ∧ w1.objs w.next = some x) := by
  have hn1 : (h.ReadNil iter).1 = false := by rw [hnull]
  have hn2 : (h.ReadNil iter).2 = iter := by rw [hnull]
  have hscan1 : (h.locateObjectField (h.ReadNil iter).2 typMap.typeField).2.Error = none := by
    rw [hn2]; exact hscan
  have hres : typMap.subTypes.lookup (String.mk
      (Trim (h.locateObjectField (h.ReadNil iter).2 typMap.typeField).1 ['"', ' ']))
        = some (some T) := by
    rw [hn2, hraw, Trim_jsonString, hclean]; exact hreg
  refine ⟨?_, ?_, ?_⟩
  · intro fields name a hc hf ha
    have hD := DynDecode_of_resolved h typMap decCtx ptr iter w _ T hn1 hslot hscan1 hres
      (setContainer_struct typMap decCtx _ _ fields name a hc hf ha)
    rw [hn2] at hD
    rw [hD]
    refine ⟨_, _, rfl, ?_, ?_, ?_⟩
    · exact (hdec w.next _ (by simp [World.log, World.setCell])).1
    · exact (hdec w.next _ (by simp [World.log, World.setCell])).2.2.1 a
        (by simp [World.log, World.setCell])
    · exact (hdec w.next _ (by simp [World.log, World.setCell])).2.1
  · intro elems a hc hi ha
    have hD := DynDecode_of_resolved h typMap decCtx ptr iter w _ T hn1 hslot hscan1 hres
      (setContainer_slice typMap decCtx _ _ elems a hc hi ha)
    rw [hn2] at hD
    rw [hD]
    refine ⟨_, _, rfl, ?_, ?_, ?_⟩
    · exact (hdec w.next _ (by simp [World.log, World.setCell])).1
    · exact (hdec w.next _ (by simp [World.log, World.setCell])).2.2.1 a
        (by simp [World.log, World.setCell])
    · exact (hdec w.next _ (by simp [World.log, World.setCell])).2.1
  · intro m hc
    have hD := DynDecode_of_resolved h typMap decCtx ptr iter w _ T hn1 hslot hscan1 hres
      (setContainer_map typMap decCtx _ _ m hc)
    rw [hn2] at hD
    rw [hD]
    refine ⟨_, _, rfl, ?_, ?_, ?_⟩
    · exact (hdec w.next _ (by simp [World.log])).1
    · exact (hdec w.next _ (by simp [World.log])).2.2.2 m decCtx.mapKey
        (by simp [World.log, lookup_mapSet])
    · exact (hdec w.next _ (by simp [World.log])).2.1

/-- C2 witness: the encoding of `NewA("abcd")` decoded into the nil field
`Intf` of a `Cplx`. -/
theorem round_trip_witness :
    specHost.ReadNil ⟨Marshal implAInstance, 0, none⟩ = (false, ⟨Marshal implAInstance, 0, none⟩)
    ∧ IsNil (emptyWorld.cells 0) = true
    ∧ (specHost.locateObjectField ⟨Marshal implAInstance, 0, none⟩ testBinding.typeField).1
        = jsonString "ImplA".toList
    ∧ testBinding.subTypes.lookup "ImplA" = some (some ImplA)
    ∧ Trim "ImplA".toList ['"', ' '] = "ImplA".toList
    ∧ ∃ it1 w1, DynDecode specHost testBinding cplxCtx 0 ⟨Marshal implAInstance, 0, none⟩
          emptyWorld = .ok (it1, w1) ∧ it1.Error = none
        ∧ w1.cells 0 = .obj ImplA emptyWorld.next
        ∧ w1.objs emptyWorld.next = some implAInstance :=
  ⟨by decide, by decide, by decide, by decide, by decide,
    (round_trip specHost testBinding cplxCtx 0 ⟨Marshal implAInstance, 0, none⟩ emptyWorld
      implAInstance ImplA "ImplA" (by decide) (by decide) (by decide) (by decide) (by decide)
      (by decide)
      (fun a w1 _ => by
        have hv : specHost.ReadVal (.obj ImplA a)
            { (specHost.locateObjectField ⟨Marshal implAInstance, 0, none⟩
                testBinding.typeField).2 with
              head := (⟨Marshal implAInstance, 0, none⟩ : Iterator).head } w1 =
            (⟨Marshal implAInstance, 27, none⟩,
              { w1 with objs := Function.update w1.objs a (some implAInstance) }) := by rfl
        rw [hv]
        exact ⟨rfl, by simp, fun c hc => hc, fun m k hk => hk⟩)).1
      [("Intf", 0)] "Intf" 0 rfl rfl rfl⟩

/-! ## C9: the string-key encoder -/

theorem hexVal_hexDigit (n : Nat) (hn : n < 16) : hexVal (hexDigit n) = some n := by
  interval_cases n <;> decide

theorem hexDigit_plain (n : Nat) : hexDigit n ≠ '"' ∧ hexDigit n ≠ '\\' := by
  by_cases hn : n < 16
  · interval_cases n <;> decide
  · have : hexDigit n = '0' := by
      unfold hexDigit
      rw [List.getD_eq_default]
      simpa [hexDigits] using hn
    rw [this]; decide

theorem unescapeFrom_escapeChar (c : Char) (tail : List Char) :
    unescapeFrom .plain (escapeChar c ++ tail)
      = (unescapeFrom .plain tail).map (fun s => c :: s) := by
  unfold escapeChar
  by_cases h1 : c = '"'
  · subst h1; rfl
  by_cases h2 : c = '\\'
  · subst h2; rfl
  by_cases h3 : c = '\n'
  · subst h3; rfl
  by_cases h4 : c = '\r'
  · subst h4; rfl
  by_cases h5 : c = '\t'
  · subst h5; rfl
  by_cases h6 : (c.toNat < 32 || c == '<' || c == '>' || c == '&') = true
  · have hn : c.toNat < 256 := by
      simp only [Bool.or_eq_true, decide_eq_true_eq, beq_iff_eq] at h6
      rcases h6 with ((h | h) | h) | h
      · omega
      · subst h; decide
      · subst h; decide
      · subst h; decide
    have hd : c.toNat / 16 < 16 := by omega
    have hm : c.toNat % 16 < 16 := by omega
    simp only [h1, h2, h3, h4, h5, h6, beq_iff_eq, ↓reduceIte, List.cons_append, List.nil_append]
    have h0 : hexVal '0' = some 0 := by decide
    simp [unescapeFrom, h0, hexVal_hexDigit _ hd, hexVal_hexDigit _ hm, Nat.div_add_mod']
  · simp only [h1, h2, h3, h4, h5, h6, beq_iff_eq, ↓reduceIte, List.cons_append, List.nil_append]
    simp [unescapeFrom, h2]

theorem unescape_escape (s : List Char) : unescape (escape s) = some s := by
  unfold unescape escape
  induction s with
  | nil => rfl
  | cons c s ih =>
    rw [List.flatMap_cons, unescapeFrom_escapeChar, ih]
    rfl

theorem scanString_plain (c : Char) (t : List Char) (h1 : c ≠ '"') (h2 : c ≠ '\\') :
    scanString (c :: t) =
      match scanString t with
      | none => none
      | some (s, r) => some (c :: s, r) := by
  rw [scanString]
  · intro h; exact h1 h
  · intro c1 rest h _; exact h2 h

theorem scanString_escaped (e : Char) (t : List Char) :
    scanString ('\\' :: e :: t) =
      match scanString t with
      | none => none
      | some (s, r) => some ('\\' :: e :: s, r) := by
  rw [scanString]

theorem scanString_escapeChar (c : Char) (t : List Char) :
    scanString (escapeChar c ++ t) =
      match scanString t with
      | none => none
      | some (s, r) => some (escapeChar c ++ s, r) := by
  unfold escapeChar
  by_cases h1 : c = '"'
  · subst h1; exact scanString_escaped _ _
  by_cases h2 : c = '\\'
  · subst h2; exact scanString_escaped _ _
  by_cases h3 : c = '\n'
  · subst h3; exact scanString_escaped _ _
  by_cases h4 : c = '\r'
  · subst h4; exact scanString_escaped _ _
  by_cases h5 : c = '\t'
  · subst h5; exact scanString_escaped _ _
  by_cases h6 : (c.toNat < 32 || c == '<' || c == '>' || c == '&') = true
  · simp only [h1, h2, h3, h4, h5, h6, beq_iff_eq, ↓reduceIte, List.cons_append, List.nil_append]
    rw [scanString_escaped, scanString_plain '0' _ (by decide) (by decide),
      scanString_plain '0' _ (by decide) (by decide),
      scanString_plain _ _ (hexDigit_plain _).1 (hexDigit_plain _).2,
      scanString_plain _ _ (hexDigit_plain _).1 (hexDigit_plain _).2]
    cases scanString t with
    | none => rfl
    | some p => rfl
  · simp only [h1, h2, h3, h4, h5, h6, beq_iff_eq, ↓reduceIte, List.cons_append, List.nil_append]
    exact scanString_plain c t h1 h2

theorem scanString_escape (s rest : List Char) :
    scanString (escape s ++ '"' :: rest) = some (escape s, rest) := by
  unfold escape
  induction s with
  | nil => rfl
  | cons c s ih =>
    rw [List.flatMap_cons, List.append_assoc, scanString_escapeChar, ih]

/-- Reading back a string written by `WriteStringWithHTMLEscaped` gives the
bytes that were written. -/
theorem ReadString_jsonString_escape (s rest : List Char) :
    (ReadString ⟨jsonString (escape s) ++ rest, 0, none⟩).1 = s
    ∧ (ReadString ⟨jsonString (escape s) ++ rest, 0, none⟩).2.Error = none := by
  have h : skipSpace (List.drop 0 (jsonString (escape s) ++ rest))
      = '"' :: (escape s ++ '"' :: rest) := by
    simp [jsonString, skipSpace, List.dropWhile_cons, isSpace]
  unfold ReadString
  simp only [h, scanString_escape, unescape_escape, and_self]

/-- C9: `keyAsStringEncoder.Encode` runs the wrapped encoder on a private,
empty stream. When the wrapped encoder leaves an error on it, or when the
flush returns one, the outer stream is as before but for its error, which is
that error: nothing is written. Otherwise the outer stream is what one call
of `WriteStringWithHTMLEscaped` makes of it, on exactly the bytes that the
private buffer holds after the flush. With the escaped write of the host codec
for concrete runs, that call appends one quoted string to the outer stream,
and reading that string back gives the bytes of the private buffer. -/
theorem string_key_encoding (h : EncHost) (ptr : Addr) (stream : Stream) :
    (∀ e, (h.Encode ptr NewStream).Error = some e →
      keyAsStringEncoder.Encode h ptr stream = { stream with Error := some e })
    ∧ (∀ e, (h.Encode ptr NewStream).Error = none →
      (h.Flush (h.Encode ptr NewStream)).1 = some e →
      keyAsStringEncoder.Encode h ptr stream = { stream with Error := some e })
    ∧ ((h.Encode ptr NewStream).Error = none →
      (h.Flush (h.Encode ptr NewStream)).1 = none →
      keyAsStringEncoder.Encode h ptr stream =
        h.WriteStringWithHTMLEscaped (h.Flush (h.Encode ptr NewStream)).2.out stream)
    ∧ (∀ (bytes rest : List Char),
      WriteStringWithHTMLEscaped bytes stream =
        { stream with buf := stream.buf ++ jsonString (escape bytes) }
      ∧ (ReadString ⟨jsonString (escape bytes) ++ rest, 0, none⟩).1 = bytes
      ∧ (ReadString ⟨jsonString (escape bytes) ++ rest, 0, none⟩).2.Error = none) := by
  refine ⟨?_, ?_, ?_, ?_⟩
  · intro e he
    simp only [keyAsStringEncoder.Encode, he]
  · intro e he hf
    simp only [keyAsStringEncoder.Encode, he, hf]
  · intro he hf
    simp only [keyAsStringEncoder.Encode, he, hf]
  · intro bytes rest
    exact ⟨rfl, ReadString_jsonString_escape bytes rest⟩

/-! ## C11: a failed resolution -/

theorem newObjectPtr_of_not_resolved (typMap : typeMapping) (raw : List Char) (w : World)
    (hkey : ∀ T, typMap.subTypes.lookup (String.mk (Trim raw ['"', ' '])) ≠ some (some T)) :
    newObjectPtr typMap raw w =
      (.error (Errorf "typeMapping decoder: type '%s' not found"
        [String.mk (Trim raw ['"', ' '])]), w) := by
  cases hl : typMap.subTypes.lookup (String.mk (Trim raw ['"', ' '])) with
  | none => simp only [newObjectPtr, hl]
  | some v =>
    cases v with
    | none => simp only [newObjectPtr, hl]
    | some T => exact absurd hl (hkey T)

/-- `DynDecode` when the scan leaves an error on the cursor. -/
theorem DynDecode_of_scan_error (h : Host) (typMap : typeMapping) (decCtx : mappingCtx)
    (ptr : Addr) (iter : Iterator) (w : World) (e : GoError)
    (hnull : (h.ReadNil iter).1 = false) (hslot : IsNil (w.cells ptr) = true)
    (hscan : (h.locateObjectField (h.ReadNil iter).2 typMap.typeField).2.Error = some e) :
    DynDecode h typMap decCtx ptr iter w =
      .ok ({ (h.locateObjectField (h.ReadNil iter).2 typMap.typeField).2 with
          head := (h.ReadNil iter).2.head
          Error := some (Errorf
            "typeMapping decoder: error [%s] trying to locate type field '%s' when decoding '%s'"
            [e.Error, typMap.typeField, typMap.interfaceType.String]) },
        (w.log .ReadNil).log (.locateObjectField typMap.typeField (h.ReadNil iter).2.head)) := by
  have hslot1 : IsNil ((w.log .ReadNil).cells ptr) = true := hslot
  simp only [DynDecode, hnull, hslot1, hscan, Bool.false_eq_true, ↓reduceIte]

theorem setContainer_struct_no_field (typMap : typeMapping) (decCtx : mappingCtx)
    (v : IfaceVal) (w : World) (fields : List (String × Addr))
    (hc : decCtx.container = .Struct fields) (hf : decCtx.field = none) :
    setContainer typMap decCtx v w =
      .ok (.error (Errorf "typeMapping decoder: expecting struct field when decoding '%s'"
        [typMap.interfaceType.String])) := by
  simp only [setContainer, hc, hf]

theorem setContainer_other (typMap : typeMapping) (decCtx : mappingCtx)
    (v : IfaceVal) (w : World) (kind : String)
    (hc : decCtx.container = .Other kind) :
    setContainer typMap decCtx v w =
      .ok (.error (Errorf
        "typeMapping decoder: unexpected kind %s of container when decoding '%s'"
        [kind, typMap.interfaceType.String])) := by
  simp only [setContainer, hc]

/-- C11: take a call of `DynDecode` with a nil slot and a token that is not
null. When the scan leaves an error on the cursor, the call ends with the
error of the cursor set to a message that wraps that error and names the
discriminator field and the interface. When the scan leaves no error and the
trimmed discriminator has no registered type, the call ends with the
unknown-variant error. In both cases the memory is as before but for the log
of `ReadNil` and of the scan. When the discriminator resolves and the
container is a struct without a field, or of a kind other than struct, slice
and map, the call ends with the error of that case, and the memory differs
only in the instance that was allocated. In all four cases the cells (slot and
container locations) and the maps are unchanged and `ReadVal` is not called. -/
theorem failed_resolution_is_atomic (h : Host) (typMap : typeMapping)
    (decCtx : mappingCtx) (ptr : Addr) (iter : Iterator) (w : World)
    (hnull : (h.ReadNil iter).1 = false) (hslot : IsNil (w.cells ptr) = true) :
    (∀ e, (h.locateObjectField (h.ReadNil iter).2 typMap.typeField).2.Error = some e →
      DynDecode h typMap decCtx ptr iter w =
        .ok ({ (h.locateObjectField (h.ReadNil iter).2 typMap.typeField).2 with
            head := (h.ReadNil iter).2.head
            Error := some (Errorf
              "typeMapping decoder: error [%s] trying to locate type field '%s' when decoding '%s'"
              [e.Error, typMap.typeField, typMap.interfaceType.String]) },
          { cells := w.cells
            maps := w.maps
            objs := w.objs
            next := w.next
            trace := w.trace ++ [.ReadNil,
              .locateObjectField typMap.typeField (h.ReadNil iter).2.head] }))
    ∧ ((h.locateObjectField (h.ReadNil iter).2 typMap.typeField).2.Error = none →
      (∀ T, typMap.subTypes.lookup (String.mk
        (Trim (h.locateObjectField (h.ReadNil iter).2 typMap.typeField).1 ['"', ' ']))
          ≠ some (some T)) →
      DynDecode h typMap decCtx ptr iter w =
        .ok ({ (h.locateObjectField (h.ReadNil iter).2 typMap.typeField).2 with
            head := (h.ReadNil iter).2.head
            Error := some (Errorf "typeMapping decoder: type '%s' not found"
              [String.mk (Trim (h.locateObjectField (h.ReadNil iter).2
                typMap.typeField).1 ['"', ' '])]) },
          { cells := w.cells
            maps := w.maps
            objs := w.objs
            next := w.next
            trace := w.trace ++ [.ReadNil,
              .locateObjectField typMap.typeField (h.ReadNil iter).2.head] }))
    ∧ (∀ (T : GoType) (fields : List (String × Addr)),
      (h.locateObjectField (h.ReadNil iter).2 typMap.typeField).2.Error = none →
      typMap.subTypes.lookup (String.mk
        (Trim (h.locateObjectField (h.ReadNil iter).2 typMap.typeField).1 ['"', ' ']))
          = some (some T) →
      decCtx.container = .Struct fields → decCtx.field = none →
      DynDecode h typMap decCtx ptr iter w =
        .ok ({ (h.locateObjectField (h.ReadNil iter).2 typMap.typeField).2 with
            head := (h.ReadNil iter).2.head
            Error := some (Errorf
              "typeMapping decoder: expecting struct field when decoding '%s'"
              [typMap.interfaceType.String]) },
          { cells := w.cells
            maps := w.maps
            objs := Function.update w.objs w.next (some (Instance.zero T))
            next := w.next + 1
            trace := w.trace ++ [.ReadNil,
              .locateObjectField typMap.typeField (h.ReadNil iter).2.head,
              .UnsafeNew T w.next] }))
    ∧ (∀ (T : GoType) (kind : String),
      (h.locateObjectField (h.ReadNil iter).2 typMap.typeField).2.Error = none →
      typMap.subTypes.lookup (String.mk
        (Trim (h.locateObjectField (h.ReadNil iter).2 typMap.typeField).1 ['"', ' ']))
          = some (some T) →
      decCtx.container = .Other kind →
      DynDecode h typMap decCtx ptr iter w =
        .ok ({ (h.locateObjectField (h.ReadNil iter).2 typMap.typeField).2 with
            head := (h.ReadNil iter).2.head
            Error := some (Errorf
              "typeMapping decoder: unexpected kind %s of container when decoding '%s'"
              [kind, typMap.interfaceType.String]) },
          { cells := w.cells
            maps := w.maps
            objs := Function.update w.objs w.next (some (Instance.zero T))
            next := w.next + 1
            trace := w.trace ++ [.ReadNil,
              .locateObjectField typMap.typeField (h.ReadNil iter).2.head,
              .UnsafeNew T w.next] })) := by
  refine ⟨?_, ?_, ?_, ?_⟩
  · intro e hscan
    rw [DynDecode_of_scan_error h typMap decCtx ptr iter w e hnull hslot hscan]
    simp [World.log]
  · intro hscan hkey
    rw [DynDecode_resolution h typMap decCtx ptr iter w hnull hslot hscan,
      newObjectPtr_of_not_resolved typMap _ _ hkey]
    simp [World.log]
  · intro T fields hscan hres hc hf
    rw [DynDecode_resolution h typMap decCtx ptr iter w hnull hslot hscan,
      newObjectPtr_of_lookup_some typMap _ _ T hres]
    simp only [setContainer_struct_no_field typMap decCtx _ _ fields hc hf]
    simp [World.log]
  · intro T kind hscan hres hc
    rw [DynDecode_resolution h typMap decCtx ptr iter w hnull hslot hscan,
      newObjectPtr_of_lookup_some typMap _ _ T hres]
    simp only [setContainer_other typMap decCtx _ _ kind hc]
    simp [World.log]

/-- C11 witness: the truncated object `{"a":"abcd"` decoded into the nil field
`Intf` of a `Cplx`; the scan sets an error. -/
theorem failed_resolution_is_atomic_witness :
    (specHost.ReadNil (cursor "\x7b\"a\":\"abcd\"")).1 = false
    ∧ IsNil (emptyWorld.cells 0) = true
    ∧ (specHost.locateObjectField (specHost.ReadNil (cursor "\x7b\"a\":\"abcd\"")).2
        testBinding.typeField).2.Error =
          some (Errorf "%s: unexpected end of input or character" ["ReadObjectCB"])
    ∧ DynDecode specHost testBinding cplxCtx 0 (cursor "\x7b\"a\":\"abcd\"") emptyWorld =
        .ok ({ (specHost.locateObjectField
              (specHost.ReadNil (cursor "\x7b\"a\":\"abcd\"")).2 testBinding.typeField).2 with
            head := (specHost.ReadNil (cursor "\x7b\"a\":\"abcd\"")).2.head
            Error := some (Errorf
              "typeMapping decoder: error [%s] trying to locate type field '%s' when decoding '%s'"
              [(Errorf "%s: unexpected end of input or character" ["ReadObjectCB"]).Error,
                testBinding.typeField, testBinding.interfaceType.String]) },
          { cells := emptyWorld.cells
            maps := emptyWorld.maps
            objs := emptyWorld.objs
            next := emptyWorld.next
            trace := emptyWorld.trace ++ [.ReadNil,
              .locateObjectField testBinding.typeField
                (specHost.ReadNil (cursor "\x7b\"a\":\"abcd\"")).2.head] }) :=
  ⟨by decide, by decide, by decide,
    (failed_resolution_is_atomic specHost testBinding cplxCtx 0
      (cursor "\x7b\"a\":\"abcd\"") emptyWorld (by decide) (by decide)).1
      (Errorf "%s: unexpected end of input or character" ["ReadObjectCB"]) (by decide)⟩

/-! ## C12: the reentry check -/

/-- The `ReadNil` of the host codec for concrete runs leaves a cursor that
stands on a token other than null as it is. -/
theorem ReadNil_on_token (it : Iterator) (c : Char) (rest : List Char)
    (htok : it.buf.drop it.head = c :: rest) (hc : isSpace c = false)
    (hnull : (ReadNil it).1 = false) : (ReadNil it).2 = it := by
  have hlen : (it.buf.drop it.head).length = it.buf.length - it.head := List.length_drop _ _
  have hsk : skipSpace (it.buf.drop it.head) = c :: rest := by
    rw [htok]; simp [skipSpace, List.dropWhile_cons, hc]
  have hpos : it.buf.length - (c :: rest).length = it.head := by
    rw [htok] at hlen
    simp only [List.length_cons] at hlen ⊢
    omega
  unfold ReadNil at hnull ⊢
  rw [hsk] at hnull ⊢
  dsimp only at hnull ⊢
  split
  · rename_i heq
    rw [heq] at hnull
    simp at hnull
  · simp only [hpos]

/-- C12: when the next token is not null and the slot holds an instance,
`DynDecode` returns what the host decode `ReadVal` returns on that instance,
on the cursor exactly as `ReadNil` left it, and on a memory that is the one of
the call but for the log, which has `ReadNil` and this one `ReadVal` and
nothing else: no scan, no allocation, no assignment to the container. With the
`ReadNil` of the host codec for concrete runs, a cursor that stands on the
token is handed on as it was at the call. -/
theorem reentry_decodes_existing (h : Host) (typMap : typeMapping) (decCtx : mappingCtx)
    (ptr : Addr) (iter : Iterator) (w : World)
    (hnull : (h.ReadNil iter).1 = false) (hslot : IsNil (w.cells ptr) = false) :
    DynDecode h typMap decCtx ptr iter w =
      .ok (h.ReadVal (w.cells ptr) (h.ReadNil iter).2
        { cells := w.cells
          maps := w.maps
          objs := w.objs
          next := w.next
          trace := w.trace ++ [.ReadNil, .ReadVal (w.cells ptr) (h.ReadNil iter).2.head] })
    ∧ (∃ typ addr, w.cells ptr = .obj typ addr)
    ∧ (∀ (it : Iterator) (c : Char) (rest : List Char),
        it.buf.drop it.head = c :: rest → isSpace c = false →
        (ReadNil it).1 = false → (ReadNil it).2 = it) := by
  refine ⟨?_, ?_, ReadNil_on_token⟩
  · have hslot1 : IsNil ((w.log .ReadNil).cells ptr) = false := hslot
    simp only [DynDecode, hnull, hslot1, Bool.false_eq_true, ↓reduceIte]
    simp [World.log]
  · cases hv : w.cells ptr with
    | nil => rw [hv] at hslot; simp [IsNil] at hslot
    | nilPtr t => rw [hv] at hslot; simp [IsNil] at hslot
    | obj typ addr => exact ⟨typ, addr, rfl⟩

/-- C12 witness: the object `{"type":"ImplA","a":"x"}` decoded into a field
that already holds an instance of `ImplA`. -/
theorem reentry_decodes_existing_witness :
    (specHost.ReadNil (cursor "\x7b\"type\":\"ImplA\",\"a\":\"x\"\x7d")).1 = false
    ∧ IsNil (populatedWorld.cells 0) = false
    ∧ DynDecode specHost testBinding cplxCtx 0
        (cursor "\x7b\"type\":\"ImplA\",\"a\":\"x\"\x7d") populatedWorld =
      .ok (specHost.ReadVal (populatedWorld.cells 0)
        (specHost.ReadNil (cursor "\x7b\"type\":\"ImplA\",\"a\":\"x\"\x7d")).2
        { cells := populatedWorld.cells
          maps := populatedWorld.maps
          objs := populatedWorld.objs
          next := populatedWorld.next
          trace := populatedWorld.trace ++ [.ReadNil,
            .ReadVal (populatedWorld.cells 0)
              (specHost.ReadNil (cursor "\x7b\"type\":\"ImplA\",\"a\":\"x\"\x7d")).2.head] }) :=
  ⟨by decide, by decide,
    (reentry_decodes_existing specHost testBinding cplxCtx 0
      (cursor "\x7b\"type\":\"ImplA\",\"a\":\"x\"\x7d") populatedWorld
      (by decide) (by decide)).1⟩

/-! ## C13: the lookup is a peek -/

/-- The scanner of the host codec for concrete runs does not touch the input. -/
theorem locateObjectField_buf (it : Iterator) (field : String) :
    (locateObjectField it field).2.buf = it.buf := by
  unfold locateObjectField
  split <;> rfl

/-- C13: the resolution step, as `DynDecode` and `DynDecodeKey` write it,
returns the raw value the scanner found and the cursor of the scanner with its
position set back to the one it had before the scan, whatever the scanner did
(field found, field absent, stream error). `DynDecode`, on a nil slot and a
token that is not null, goes on with that cursor only: on a scan error it
returns it with the wrapping error; otherwise it panics in the assignment,
returns it with an error, or hands it to `ReadVal`. `DynDecodeKey`, once the
key string is read, does the same on the cursor it opened over the key: it
panics, returns an error, or hands that cursor, at position 0, to `ReadVal`.
The scanner of the host codec for concrete runs leaves the input as it is, so
the restored position is the start of the object. -/
theorem discriminator_lookup_is_peek (h : Host) (typMap : typeMapping) :
    (∀ (it : Iterator),
      (locateTypeField h typMap.typeField it).2.head = it.head
      ∧ (locateTypeField h typMap.typeField it).1
          = (h.locateObjectField it typMap.typeField).1
      ∧ (locateTypeField h typMap.typeField it).2.Error
          = (h.locateObjectField it typMap.typeField).2.Error
      ∧ (locateTypeField h typMap.typeField it).2.buf
          = (h.locateObjectField it typMap.typeField).2.buf)
    ∧ (∀ (decCtx : mappingCtx) (ptr : Addr) (iter : Iterator) (w : World),
      (h.ReadNil iter).1 = false → IsNil (w.cells ptr) = true →
      (∀ e, (locateTypeField h typMap.typeField (h.ReadNil iter).2).2.Error = some e →
        ∃ err w1, DynDecode h typMap decCtx ptr iter w =
          .ok ({ (locateTypeField h typMap.typeField (h.ReadNil iter).2).2 with
            Error := some err }, w1))
      ∧ ((locateTypeField h typMap.typeField (h.ReadNil iter).2).2.Error = none →
        (∃ p, DynDecode h typMap decCtx ptr iter w = .error p)
        ∨ (∃ err w1, DynDecode h typMap decCtx ptr iter w =
          .ok ({ (locateTypeField h typMap.typeField (h.ReadNil iter).2).2 with
            Error := some err }, w1))
        ∨ (∃ newObj w1, DynDecode h typMap decCtx ptr iter w =
          .ok (h.ReadVal newObj
            (locateTypeField h typMap.typeField (h.ReadNil iter).2).2 w1))))
    ∧ (∀ (iter : Iterator) (w : World),
      (h.ReadNil iter).1 = false → (h.ReadString (h.ReadNil iter).2).2.Error = none →
      (BorrowIterator (h.ReadString (h.ReadNil iter).2).1).head = 0
      ∧ ((∃ p, DynDecodeKey h typMap iter w = .error p)
        ∨ (∃ err w1, DynDecodeKey h typMap iter w =
          .ok ((.nil, some err), (h.ReadString (h.ReadNil iter).2).2, w1))
        ∨ (∃ newObj w1, DynDecodeKey h typMap iter w =
          .ok ((newObj, none), (h.ReadString (h.ReadNil iter).2).2,
            (h.ReadVal newObj
              (locateTypeField h typMap.typeField
                (BorrowIterator (h.ReadString (h.ReadNil iter).2).1)).2 w1).2))))
    ∧ (∀ (it : Iterator) (field : String), (locateObjectField it field).2.buf = it.buf) := by
  refine ⟨fun it => ⟨rfl, rfl, rfl, rfl⟩, ?_, ?_, locateObjectField_buf⟩
  · intro decCtx ptr iter w hnull hslot
    constructor
    · intro e he
      exact ⟨_, _, DynDecode_of_scan_error h typMap decCtx ptr iter w e hnull hslot he⟩
    · intro hscan
      have hD := DynDecode_resolution h typMap decCtx ptr iter w hnull hslot hscan
      rcases hn : newObjectPtr typMap
          (h.locateObjectField (h.ReadNil iter).2 typMap.typeField).1
          ((w.log .ReadNil).log
            (.locateObjectField typMap.typeField (h.ReadNil iter).2.head)) with ⟨r, w1⟩
      rw [hn] at hD
      cases r with
      | error err => exact Or.inr (Or.inl ⟨err, w1, hD⟩)
      | ok newObj =>
        simp only at hD
        rcases hs : setContainer typMap decCtx newObj w1 with p | r2
        · rw [hs] at hD
          exact Or.inl ⟨p, hD⟩
        · rw [hs] at hD
          cases r2 with
          | error err => exact Or.inr (Or.inl ⟨err, w1, hD⟩)
          | ok w2 => exact Or.inr (Or.inr ⟨newObj, _, hD⟩)
  · intro iter w hnull hkeystr
    refine ⟨rfl, ?_⟩
    cases hscan : (h.locateObjectField (BorrowIterator (h.ReadString (h.ReadNil iter).2).1)
        typMap.typeField).2.Error with
    | some e =>
      exact Or.inl ⟨_, DynDecodeKey_scan_error h typMap iter w e hnull hkeystr hscan⟩
    | none =>
      rcases hn : newObjectPtr typMap
          (h.locateObjectField (BorrowIterator (h.ReadString (h.ReadNil iter).2).1)
            typMap.typeField).1
          (((w.log .ReadNil).log .ReadString).log
            (.locateObjectField typMap.typeField
              (BorrowIterator (h.ReadString (h.ReadNil iter).2).1).head)) with ⟨r, w1⟩
      cases r with
      | error err =>
        refine Or.inr (Or.inl ⟨err, w1, ?_⟩)
        simp only [DynDecodeKey, hnull, hkeystr, hscan, Bool.false_eq_true, ↓reduceIte, hn]
      | ok newObj =>
        refine Or.inr (Or.inr ⟨newObj, w1.log (.ReadVal newObj 0), ?_⟩)
        simp only [DynDecodeKey, locateTypeField, hnull, hkeystr, hscan, Bool.false_eq_true,
          ↓reduceIte, hn]
        rfl

/-! ## C14: matching of the key encoder -/

/-- On a list without nil entries `inTypes` does not panic and tells whether
the type is an entry or the pointer type of one. -/
theorem inTypes_loop_spec (typ : GoType) :
    ∀ (l : List (Option GoType)), (∀ t ∈ l, t ≠ none) →
      (inTypes_loop typ l = .ok true ∧ ∃ t, some t ∈ l ∧ (typ = t ∨ typ = .ptr t))
      ∨ (inTypes_loop typ l = .ok false ∧ ¬ ∃ t, some t ∈ l ∧ (typ = t ∨ typ = .ptr t)) := by
  intro l
  induction l with
  | nil =>
    intro _
    exact Or.inr ⟨rfl, by simp⟩
  | cons a l ih =>
    intro hl
    cases a with
    | none => exact absurd rfl (hl none (List.mem_cons_self _ _))
    | some t =>
      unfold inTypes_loop
      by_cases hm : typ = t ∨ GoType.ptr t = typ
      · refine Or.inl ⟨by simp only [hm, ↓reduceIte], t, List.mem_cons_self _ _, ?_⟩
        rcases hm with hm | hm
        · exact Or.inl hm
        · exact Or.inr hm.symm
      · simp only [hm, ↓reduceIte]
        rcases ih (fun x hx => hl x (List.mem_cons_of_mem _ hx)) with ⟨h1, t1, ht1, hmt⟩ | ⟨h1, h2⟩
        · exact Or.inl ⟨h1, t1, List.mem_cons_of_mem _ ht1, hmt⟩
        · refine Or.inr ⟨h1, ?_⟩
          rintro ⟨t1, ht1, hmt⟩
          rcases List.mem_cons.1 ht1 with heq | hin
          · cases heq
            apply hm
            rcases hmt with hmt | hmt
            · exact Or.inl hmt
            · exact Or.inr hmt.symm
          · exact h2 ⟨t1, hin, hmt⟩

/-- C14, as stated, fails. With the allow-list `[nil, SpecKeyVideo]` the API
has an encoder for `SpecKeyVideo`, which is a type of the allow-list, and
`CreateMapKeyEncoder(SpecKeyVideo)` panics in `inTypes` on the nil entry
instead of returning an encoder. With the struct `SpecKeyVideo` configured as
the capability type and an empty allow-list, the type `string` matches
nothing, and `CreateMapKeyEncoder(string)` panics in `Implements` instead of
returning nil. -/
theorem key_encoder_matching_counterexample :
    (nilEntryExt.ctx.EncoderOf SpecKeyVideo).isSome = true
    ∧ some SpecKeyVideo ∈ nilEntryExt.types
    ∧ KeyAsStringEncoderExt.CreateMapKeyEncoder keyEnv nilEntryExt SpecKeyVideo
        = .error "invalid memory address or nil pointer dereference"
    ∧ (structCapabilityExt.ctx.EncoderOf (.basic "string")).isSome = true
    ∧ structCapabilityExt.intfType = some SpecKeyVideo
    ∧ keyEnv.Implements (.basic "string") SpecKeyVideo = false
    ∧ GoType.basic "string" ≠ SpecKeyVideo
    ∧ structCapabilityExt.types = []
    ∧ KeyAsStringEncoderExt.CreateMapKeyEncoder keyEnv structCapabilityExt (.basic "string")
        = .error "reflect: non-interface type passed to Type.Implements" :=
  ⟨rfl, by decide, rfl, rfl, rfl, by decide, by decide, rfl, rfl⟩

/-- C14 (amended): let the allow-list hold no nil entry, let the capability
interface, when one is configured, be of interface kind, and let the
configured API have an encoder for `typ`. Then `CreateMapKeyEncoder(typ)`
returns the string-key encoder that wraps the encoder of the API when a
capability interface is configured and `typ` implements it or is it, or when
`typ` is a type of the allow-list or the pointer type of one; otherwise it
returns nil. `IsEmpty` of a string-key encoder is false for every value. -/
theorem key_encoder_matching (env : TypeEnv) (e : KeyAsStringEncoderExt) (typ : GoType)
    (enc : ValEncoder)
    (henc : e.ctx.EncoderOf typ = some enc)
    (hintf : ∀ i, e.intfType = some i → i.Kind = .Interface)
    (htypes : ∀ t ∈ e.types, t ≠ none) :
    (((∃ i, e.intfType = some i ∧ (env.Implements typ i = true ∨ typ = i))
        ∨ (∃ t, some t ∈ e.types ∧ (typ = t ∨ typ = .ptr t))) →
      KeyAsStringEncoderExt.CreateMapKeyEncoder env e typ = .ok (some ⟨e.ctx, enc⟩))
    ∧ (¬ ((∃ i, e.intfType = some i ∧ (env.Implements typ i = true ∨ typ = i))
        ∨ (∃ t, some t ∈ e.types ∧ (typ = t ∨ typ = .ptr t))) →
      KeyAsStringEncoderExt.CreateMapKeyEncoder env e typ = .ok none)
    ∧ (∀ (k : keyAsStringEncoder) (ptr : Addr), k.IsEmpty ptr = false) := by
  have hlist := inTypes_loop_spec typ e.types htypes
  refine ⟨?_, ?_, fun _ _ => rfl⟩
  · intro hmatch
    unfold KeyAsStringEncoderExt.CreateMapKeyEncoder KeyAsStringEncoderExt.asInterface
      KeyAsStringEncoderExt.inTypes
    cases hi : e.intfType with
    | none =>
      rcases hmatch with ⟨i, h1, _⟩ | hin
      · rw [hi] at h1; cases h1
      · rcases hlist with ⟨h1, _⟩ | ⟨_, h2⟩
        · simp only [h1, henc, Bool.false_eq_true, ↓reduceIte]
        · exact absurd hin h2
    | some i =>
      have hk := hintf i hi
      simp only [hk, ↓reduceIte]
      by_cases himp : (env.Implements typ i || decide (typ = i)) = true
      · simp only [himp, ↓reduceIte, henc]
      · rcases hmatch with ⟨i1, h1, h2⟩ | hin
        · rw [hi] at h1
          cases h1
          exfalso
          apply himp
          rcases h2 with h2 | h2
          · simp [h2]
          · simp [h2]
        · rcases hlist with ⟨h1, _⟩ | ⟨_, h2⟩
          · simp only [himp, Bool.false_eq_true, ↓reduceIte, h1, henc]
          · exact absurd hin h2
  · intro hno
    unfold KeyAsStringEncoderExt.CreateMapKeyEncoder KeyAsStringEncoderExt.asInterface
      KeyAsStringEncoderExt.inTypes
    have hnl : inTypes_loop typ e.types = .ok false := by
      rcases hlist with ⟨_, h2⟩ | ⟨h1, _⟩
      · exact absurd (Or.inr h2) hno
      · exact h1
    cases hi : e.intfType with
    | none => simp only [hnl, Bool.false_eq_true, ↓reduceIte]
    | some i =>
      have hk := hintf i hi
      have himp : (env.Implements typ i || decide (typ = i)) = false := by
        cases hb : (env.Implements typ i || decide (typ = i)) with
        | false => rfl
        | true =>
          exfalso
          apply hno
          refine Or.inl ⟨i, hi, ?_⟩
          simpa using hb
      simp only [hk, ↓reduceIte, himp, Bool.false_eq_true, hnl]

/-- C14 witness: an extension with the capability interface `SpecKeyIf` and
an allow-list of two structs, and the pointer type of `SpecKeyVideo`, which
implements the interface and is the pointer type of an entry. -/
theorem key_encoder_matching_witness :
    bothExt.ctx.EncoderOf (.ptr SpecKeyVideo) = some emptyEncoder
    ∧ bothExt.intfType = some SpecKeyIf
    ∧ (∀ i, bothExt.intfType = some i → i.Kind = .Interface)
    ∧ (∀ t ∈ bothExt.types, t ≠ none)
    ∧ keyEnv.Implements (.ptr SpecKeyVideo) SpecKeyIf = true
    ∧ KeyAsStringEncoderExt.CreateMapKeyEncoder keyEnv bothExt (.ptr SpecKeyVideo) =
        .ok (some ⟨bothExt.ctx, emptyEncoder⟩) :=
  have hintf : ∀ i, bothExt.intfType = some i → i.Kind = .Interface :=
    fun i hi => by
      have hi1 : SpecKeyIf = i := Option.some.inj hi
      rw [← hi1]
      rfl
  ⟨rfl, rfl, hintf, by decide, by decide,
    (key_encoder_matching keyEnv bothExt (.ptr SpecKeyVideo) emptyEncoder rfl hintf
      (by decide)).1 (Or.inl ⟨SpecKeyIf, rfl, Or.inl (by decide)⟩)⟩

end Typemap
